import Mathlib

/-!
# Benchmark harness for HTTP file-transfer servers: a verification development

Shallow embedding of `main.go` (the harness) and `servers/go_http/main.go`
(one transfer target).

Effects are modelled by explicit state passing.  The state of the outside
world is the chronological history of the effectful calls the program has
made so far (`World`).  What each call returns is decided by an environment
(`Env`), an arbitrary oracle that sees the whole history; so the theorems
below hold for every behaviour of the file system, the network, the clock,
the process table and the goroutine scheduler.

Not modelled: what `fmt.Printf` and `fmt.Println` print (no function of the
harness branches on it), and the byte encoding performed by `csv.Writer`
(the output of the recorder is the list of records handed to `Write`).
Go's `int` is the 64-bit two's-complement integer: the one product the
harness computes, `1000 * round`, wraps around as it does in Go
(`wrapInt64`).  Clock readings and durations are integers.
-/

set_option autoImplicit false

namespace Cursov

/-! ## Data model -/

/-- A non-nil Go `error` value. -/
structure GoError where
  msg : String
  deriving DecidableEq, Repr

/-- File contents and request/response bodies. -/
abbrev Bytes := List UInt8

/-- An `*http.Response`: the status code and the body. -/
structure Response where
  status : Nat
  body : Bytes
  deriving DecidableEq, Repr

/-- The effectful calls the harness makes. -/
inductive Call where
  /-- The call `http.Get(url)`. -/
  | httpGet (url : String)
  /-- The call `http.Post(url, contentType, body)`. -/
  | httpPost (url : String) (contentType : String) (body : Bytes)
  /-- The call `os.ReadFile(name)`. -/
  | readFile (name : String)
  /-- The call `os.RemoveAll(path)`. -/
  | removeAll (path : String)
  /-- The call `os.Mkdir(path, os.ModePerm)`. -/
  | mkdir (path : String)
  /-- The call `os.Create(path)`. -/
  | create (path : String)
  /-- The call `cmd.Start()` on the command with the given argument vector. -/
  | start (argv : List String)
  /-- The call `cmd.Process.Kill()`. -/
  | kill (argv : List String)
  /-- The call `cmd.Wait()`. -/
  | wait (argv : List String)
  /-- The call `time.Sleep(d)`, with `d` in milliseconds. -/
  | sleep (ms : Nat)
  deriving DecidableEq, Repr

/-- The state of the outside world: every call made so far, oldest first. -/
abbrev World := List Call

/-- The environment: what each effectful call returns, given the history of
calls made before it. -/
structure Env where
  /-- Reading of the monotonic clock (`time.Now`), in nanoseconds. -/
  now : World → Int
  /-- Outcome of `http.Get`: a transport error, or a response. -/
  httpGet : World → String → Except GoError Response
  /-- Outcome of `http.Post`: a transport error, or a response. -/
  httpPost : World → String → String → Bytes → Except GoError Response
  /-- Outcome of `os.ReadFile`. -/
  readFile : World → String → Except GoError Bytes
  /-- Outcome of `os.RemoveAll`: `none` is the nil error. -/
  removeAll : World → String → Option GoError
  /-- Outcome of `os.Mkdir`. -/
  mkdir : World → String → Option GoError
  /-- Outcome of `os.Create`. -/
  create : World → String → Option GoError
  /-- Outcome of `cmd.Start`. -/
  start : World → List String → Option GoError
  /-- Outcome of `cmd.Process.Kill`. -/
  kill : World → List String → Option GoError
  /-- The goroutine scheduler: which of the runnable goroutines moves next
  (taken modulo the number of runnable goroutines). -/
  sched : World → Nat

/-- One entry of the package-level `servers` registry. -/
structure Server where
  name : String
  url : String
  cmd : List String
  deriving DecidableEq, Repr

/-- The registry `var servers` of `main.go`. -/
def servers : List Server :=
  [ ⟨"python_flask", "http://localhost:8002", ["python3", "servers/python_flask/main.py"]⟩,
    ⟨"python_fastapi", "http://localhost:8003", ["python3", "servers/python_fastapi/main.py"]⟩,
    ⟨"go_http", "http://localhost:9001", ["go", "run", "servers/go_http/main.go"]⟩,
    ⟨"go_gin", "http://localhost:9002", ["go", "run", "servers/go_gin/main.go"]⟩ ]

/-! ## Availability probe and sequential batches -/

/-- The function `checkServerAvailability`: one `GET serverURL/health`; the
result is `false` exactly when `http.Get` returned an error.  The response,
when there is one, is closed without being looked at. -/
def checkServerAvailability (env : Env) (serverURL : String) (w : World) : Bool × World :=
  match env.httpGet w (serverURL ++ "/health") with
  | .error _ => (false, w ++ [Call.httpGet (serverURL ++ "/health")])
  | .ok _ => (true, w ++ [Call.httpGet (serverURL ++ "/health")])

/-- A Go loop `for _, x := range xs { ... }` whose body may leave the
function with `return 0, err`: the first error ends the loop. -/
def forEachErr {α : Type} (body : α → World → Option GoError × World) :
    List α → World → Option GoError × World
  | [], w => (none, w)
  | x :: xs, w =>
    match body x w with
    | (some err, w1) => (some err, w1)
    | (none, w1) => forEachErr body xs w1

/-- The body of the loop of `uploadFiles` for one file: read the local file,
then post it.  The result is the error that makes `uploadFiles` return, if
any. -/
def uploadOne (env : Env) (serverURL : String) (file : String) (w : World) :
    Option GoError × World :=
  match env.readFile w file with
  | .error err => (some err, w ++ [Call.readFile file])
  | .ok fileData =>
    let w1 := w ++ [Call.readFile file]
    let w2 := w1 ++ [Call.httpPost (serverURL ++ "/upload/" ++ file) "application/octet-stream" fileData]
    match env.httpPost w1 (serverURL ++ "/upload/" ++ file) "application/octet-stream" fileData with
    | .error err => (some err, w2)
    | .ok _ => (none, w2)

/-- The function `uploadFiles`: the pair `(time.Duration, error)` in
nanoseconds, and the world afterwards. -/
def uploadFiles (env : Env) (serverURL : String) (files : List String) (w : World) :
    (Int × Option GoError) × World :=
  let start := env.now w
  match forEachErr (uploadOne env serverURL) files w with
  | (some err, w1) => ((0, some err), w1)
  | (none, w1) => ((env.now w1 - start, none), w1)

/-- The body of the loop of `downloadFiles` for one file: one `GET`, whose
body is drained and closed. -/
def downloadOne (env : Env) (serverURL : String) (file : String) (w : World) :
    Option GoError × World :=
  match env.httpGet w (serverURL ++ "/download/" ++ file) with
  | .error err => (some err, w ++ [Call.httpGet (serverURL ++ "/download/" ++ file)])
  | .ok _ => (none, w ++ [Call.httpGet (serverURL ++ "/download/" ++ file)])

/-- The function `downloadFiles`. -/
def downloadFiles (env : Env) (serverURL : String) (files : List String) (w : World) :
    (Int × Option GoError) × World :=
  let start := env.now w
  match forEachErr (downloadOne env serverURL) files w with
  | (some err, w1) => ((0, some err), w1)
  | (none, w1) => ((env.now w1 - start, none), w1)

/-- The world after the loop body has run on every element of `xs` in
order. -/
def runAll {α : Type} (body : α → World → Option GoError × World) (xs : List α) (w : World) :
    World :=
  xs.foldl (fun w1 x => (body x w1).2) w

/-- The names passed to `os.ReadFile`, in call order. -/
def readsOf (w : World) : List String :=
  w.filterMap fun c => match c with
    | Call.readFile name => some name
    | _ => none

/-- The addresses passed to `http.Get`, in call order. -/
def getsOf (w : World) : List String :=
  w.filterMap fun c => match c with
    | Call.httpGet url => some url
    | _ => none

/-- The addresses passed to `http.Post`, in call order. -/
def postsOf (w : World) : List String :=
  w.filterMap fun c => match c with
    | Call.httpPost url _ _ => some url
    | _ => none

/-! ## Parallel batches -/

/-- How a function of the harness can fail to return to its caller. -/
inductive Abort where
  /-- A run-time panic, raised in the given world. -/
  | panic (w : World)
  /-- The call never returns: `wg.Wait` blocks for ever. -/
  | blocked (w : World)
  deriving DecidableEq, Repr

/-- A goroutine started by `uploadFilesParallel`, by the point it has
reached. -/
inductive UploadUnit where
  /-- Started by `go func(file)`, `os.ReadFile` not yet called. -/
  | spawned (file : String)
  /-- The file was read, `http.Post` not yet called. -/
  | loaded (file : String) (fileData : Bytes)
  deriving DecidableEq, Repr

/-- One move of a goroutine of `uploadFilesParallel`: its next effectful
call.  `none` means the goroutine has returned (and run `wg.Done`); an error
makes it return without touching any other goroutine. -/
def stepUploadUnit (env : Env) (serverURL : String) (u : UploadUnit) (w : World) :
    Option UploadUnit × World :=
  match u with
  | UploadUnit.spawned file =>
    match env.readFile w file with
    | .error _ => (none, w ++ [Call.readFile file])
    | .ok fileData => (some (UploadUnit.loaded file fileData), w ++ [Call.readFile file])
  | UploadUnit.loaded file fileData =>
    match env.httpPost w (serverURL ++ "/upload/" ++ file) "application/octet-stream" fileData with
    | .error _ =>
      (none, w ++ [Call.httpPost (serverURL ++ "/upload/" ++ file) "application/octet-stream" fileData])
    | .ok _ =>
      (none, w ++ [Call.httpPost (serverURL ++ "/upload/" ++ file) "application/octet-stream" fileData])

/-- One move of a goroutine of `downloadFilesParallel`: its single `GET`. -/
def stepDownloadUnit (env : Env) (serverURL : String) (file : String) (w : World) :
    Option String × World :=
  match env.httpGet w (serverURL ++ "/download/" ++ file) with
  | .error _ => (none, w ++ [Call.httpGet (serverURL ++ "/download/" ++ file)])
  | .ok _ => (none, w ++ [Call.httpGet (serverURL ++ "/download/" ++ file)])

/-- The goroutines of a batch run interleaved until all have returned, which
is when `wg.Wait()` returns.  At each move the scheduler picks one of the
goroutines still running, among all the goroutines of the batch (a goroutine
may make its calls before the loop has started the following ones, and such
a run is one of these interleavings).  The first argument bounds the number
of moves; `none` means the bound was reached with goroutines still
running. -/
def runPool {υ : Type} (step : υ → World → Option υ × World) (sched : World → Nat) :
    Nat → List υ → World → Option World
  | _, [], w => some w
  | 0, _ :: _, _ => none
  | fuel + 1, u :: us, w =>
    let i := sched w % (u :: us).length
    match (u :: us)[i]? with
    | none => none
    | some v =>
      match step v w with
      | (none, w1) => runPool step sched fuel ((u :: us).eraseIdx i) w1
      | (some v1, w1) => runPool step sched fuel ((u :: us).set i v1) w1

/-- The function `uploadFilesParallel`: one goroutine per file, then
`wg.Wait()`.  Each goroutine makes at most two calls, so `2 * len(files)`
moves are enough for all of them to return. -/
def uploadFilesParallel (env : Env) (serverURL : String) (files : List String) (w : World) :
    Except Abort ((Int × Option GoError) × World) :=
  let start := env.now w
  match runPool (stepUploadUnit env serverURL) env.sched (2 * files.length)
      (files.map UploadUnit.spawned) w with
  | none => .error (Abort.blocked w)
  | some w1 => .ok ((env.now w1 - start, none), w1)

/-- The function `downloadFilesParallel`: one goroutine per file, each making
one call. -/
def downloadFilesParallel (env : Env) (serverURL : String) (files : List String) (w : World) :
    Except Abort ((Int × Option GoError) × World) :=
  let start := env.now w
  match runPool (stepDownloadUnit env serverURL) env.sched files.length files w with
  | none => .error (Abort.blocked w)
  | some w1 => .ok ((env.now w1 - start, none), w1)

/-! ## Round scheduler -/

/-- A Go `map[string][]int64`: at most one entry per key. -/
abbrev SampleTable := AList (fun _ : String => List Int)

/-- The expression `results[key]`: the nil slice when the key is missing. -/
def SampleTable.get (m : SampleTable) (key : String) : List Int :=
  (m.lookup key).getD []

/-- The statement `results[key] = append(results[key], sample)`. -/
def SampleTable.appendSample (m : SampleTable) (key : String) (sample : Int) : SampleTable :=
  m.insert key (SampleTable.get m key ++ [sample])

/-- The four maps handed to `runTestRound`. -/
structure Tables where
  uploadResults : SampleTable
  downloadResults : SampleTable
  uploadResultsParallel : SampleTable
  downloadResultsParallel : SampleTable

/-- The method `time.Duration.Milliseconds`: nanoseconds divided by one
million, rounded toward zero. -/
def milliseconds (d : Int) : Int :=
  Int.tdiv d 1000000

/-- The function `clearUploads`. -/
def clearUploads (env : Env) (w : World) : Option GoError × World :=
  match env.removeAll w "uploads" with
  | some err => (some err, w ++ [Call.removeAll "uploads"])
  | none =>
    (env.mkdir (w ++ [Call.removeAll "uploads"]) "uploads",
      w ++ [Call.removeAll "uploads"] ++ [Call.mkdir "uploads"])

/-- The value of a 64-bit Go `int` expression whose mathematical value is
`x`: the representative of `x` modulo `2^64` between `-2^63` and
`2^63 - 1`. -/
def wrapInt64 (x : Int) : Int :=
  (x + 9223372036854775808) % 18446744073709551616 - 9223372036854775808

/-- The slice expression `files[:fileCount]` after the clamp of
`runTestRound`: `fileCount := 1000 * round`, computed in 64-bit arithmetic,
lowered to `len(files)` when larger.  A negative bound is a run-time panic
(`none`). -/
def currentFiles (round : Int) (files : List String) : Option (List String) :=
  let fileCount : Int := wrapInt64 (1000 * round)
  let fileCount : Int := if fileCount > (files.length : Int) then (files.length : Int) else fileCount
  if fileCount < 0 then none else some (files.take fileCount.toNat)

/-- The loop `for _, server := range servers` of `runTestRound`, over the
servers still to visit.  The maps are shared with the caller, so the tables
as they are when the function returns are part of the result, also when it
returns an error. -/
def roundLoop (env : Env) (current : List String) :
    List Server → World → Tables → Except Abort (Option GoError × World × Tables)
  | [], w, t => .ok (none, w, t)
  | server :: rest, w, t =>
    match clearUploads env w with
    | (some err, w1) => .ok (some err, w1, t)
    | (none, w1) =>
      match checkServerAvailability env server.url w1 with
      | (false, w2) => roundLoop env current rest w2 t
      | (true, w2) =>
        match uploadFiles env server.url current w2 with
        | ((_, some err), w3) => .ok (some err, w3, t)
        | ((uploadTime, none), w3) =>
          match downloadFiles env server.url current w3 with
          | ((_, some err), w4) => .ok (some err, w4, t)
          | ((downloadTime, none), w4) =>
            let t1 : Tables :=
              { t with
                uploadResults :=
                  SampleTable.appendSample t.uploadResults server.name (milliseconds uploadTime)
                downloadResults :=
                  SampleTable.appendSample t.downloadResults server.name (milliseconds downloadTime) }
            match uploadFilesParallel env server.url current w4 with
            | .error a => .error a
            | .ok ((_, some err), w5) => .ok (some err, w5, t1)
            | .ok ((uploadTimeParallel, none), w5) =>
              match downloadFilesParallel env server.url current w5 with
              | .error a => .error a
              | .ok ((_, some err), w6) => .ok (some err, w6, t1)
              | .ok ((downloadTimeParallel, none), w6) =>
                let t2 : Tables :=
                  { t1 with
                    uploadResultsParallel :=
                      SampleTable.appendSample t1.uploadResultsParallel server.name
                        (milliseconds uploadTimeParallel)
                    downloadResultsParallel :=
                      SampleTable.appendSample t1.downloadResultsParallel server.name
                        (milliseconds downloadTimeParallel) }
                roundLoop env current rest w6 t2

/-- The function `runTestRound`. -/
def runTestRound (env : Env) (round : Int) (files : List String) (w : World) (t : Tables) :
    Except Abort (Option GoError × World × Tables) :=
  match currentFiles round files with
  | none => .error (Abort.panic w)
  | some current => roundLoop env current servers w t

/-! ## Target lifecycle -/

/-- The body of the loop of `startServers` for one server: launch it, and if
that worked wait five seconds and probe it.  Only a failed launch is an
error; the result of the probe is printed and dropped. -/
def startOne (env : Env) (server : Server) (w : World) : Option GoError × World :=
  match env.start w server.cmd with
  | some err => (some err, w ++ [Call.start server.cmd])
  | none =>
    (none, (checkServerAvailability env server.url
      (w ++ [Call.start server.cmd] ++ [Call.sleep 5000])).2)

/-- The loop of `startServers` over the servers still to launch. -/
def startLoop (env : Env) (svs : List Server) (w : World) : Option GoError × World :=
  forEachErr (startOne env) svs w

/-- The function `startServers`. -/
def startServers (env : Env) (w : World) : Option GoError × World :=
  startLoop env servers w

/-- The body of the loop of `stopServers` for one server: kill it, and wait
for it unless the kill failed. -/
def stopOne (env : Env) (server : Server) (w : World) : World :=
  match env.kill w server.cmd with
  | some _ => w ++ [Call.kill server.cmd]
  | none => w ++ [Call.kill server.cmd] ++ [Call.wait server.cmd]

/-- The function `stopServers`. -/
def stopServers (env : Env) (w : World) : World :=
  servers.foldl (fun w1 server => stopOne env server w1) w

/-! ## Result recorder -/

/-- A `*csv.Writer`: the records handed to `Write` so far, oldest first. -/
abbrev CsvWriter := List (List String)

/-- The order in which a `for ... range` loop visits the entries of a map.
Go leaves it unspecified: it is some rearrangement of the entries, which may
depend on what has been written so far. -/
structure MapOrder where
  visit : CsvWriter → List (Sigma fun _ : String => List Int) →
    List (Sigma fun _ : String => List Int)
  visit_perm : ∀ (wr : CsvWriter) (es : List (Sigma fun _ : String => List Int)),
    (visit wr es).Perm es

/-- The function `createRoundHeaders`. -/
def createRoundHeaders (rounds : Nat) : List String :=
  (List.range rounds).map fun i => toString (i + 1)

/-- The function `convertToStringSlice`. -/
def convertToStringSlice (times : List Int) : List String :=
  times.map fun t => toString t

/-- The function `writeResultsToCSV`: the header record, whose length comes
from the samples of `servers[0]`, then one record per entry of the map. -/
def writeResultsToCSV (order : MapOrder) (writer : CsvWriter) (label : String)
    (results : SampleTable) : CsvWriter :=
  let header : List String :=
    [label] ++ createRoundHeaders (SampleTable.get results servers[0].name).length
  (order.visit (writer ++ [header]) results.entries).foldl
    (fun wr e => wr ++ [[e.1] ++ convertToStringSlice e.2]) (writer ++ [header])

/-! ## The program -/

/-- The file set built at the start of `main`. -/
def testFiles : List String :=
  ((List.range 1000).map fun i => "data/file_" ++ toString (i + 1) ++ ".json") ++
    ["data/large_text_file.txt"]

/-- The constant `totalRounds` of `main`. -/
def totalRounds : Nat := 100

/-- The loop `for round := 1; round <= totalRounds; round++` of `main`, over
the rounds still to run. -/
def roundsLoop (env : Env) (files : List String) :
    List Int → World → Tables → Except Abort (Option GoError × World × Tables)
  | [], w, t => .ok (none, w, t)
  | round :: more, w, t =>
    match runTestRound env round files w t with
    | .error a => .error a
    | .ok (some err, w1, t1) => .ok (some err, w1, t1)
    | .ok (none, w1, t1) => roundsLoop env files more w1 t1

/-- What a run of `main` leaves behind: the world, and for each of
`results/results.csv` and `results/results_mn.csv` the records written to it
(`none` when the file was never created). -/
structure MainResult where
  world : World
  results : Option CsvWriter
  resultsMn : Option CsvWriter
  deriving DecidableEq, Repr

/-- The function `main`.  The deferred `stopServers` is registered only after
`startServers` has returned without error. -/
def main (env : Env) (order : MapOrder) (w : World) : Except Abort MainResult :=
  match startServers env w with
  | (some _, w1) => .ok ⟨w1, none, none⟩
  | (none, w1) =>
    match env.create w1 "results/results.csv" with
    | some _ => .ok ⟨stopServers env (w1 ++ [Call.create "results/results.csv"]), none, none⟩
    | none =>
      let w2 := w1 ++ [Call.create "results/results.csv"]
      match env.create w2 "results/results_mn.csv" with
      | some _ =>
        .ok ⟨stopServers env (w2 ++ [Call.create "results/results_mn.csv"]), some [], none⟩
      | none =>
        let w3 := w2 ++ [Call.create "results/results_mn.csv"]
        match roundsLoop env testFiles ((List.range totalRounds).map fun i => (i : Int) + 1) w3
            ⟨∅, ∅, ∅, ∅⟩ with
        | .error (Abort.panic wp) => .error (Abort.panic (stopServers env wp))
        | .error (Abort.blocked wb) => .error (Abort.blocked wb)
        | .ok (some _, w4, _) => .ok ⟨stopServers env w4, some [], some []⟩
        | .ok (none, w4, t) =>
          let writer1 := writeResultsToCSV order [] "Server up" t.uploadResults
          let writer1 := writer1 ++ [[]]
          let writer1 := writeResultsToCSV order writer1 "Server dw" t.downloadResults
          let writer2 := writeResultsToCSV order [] "Server up (parallel)" t.uploadResultsParallel
          let writer2 := writer2 ++ [[]]
          let writer2 :=
            writeResultsToCSV order writer2 "Server dw (parallel)" t.downloadResultsParallel
          .ok ⟨stopServers env w4, some writer1, some writer2⟩

/-! ## The `go_http` transfer target (`servers/go_http/main.go`) -/

/-- The part of an `*http.Request` the handlers read: the path of the
address, and the content of a file field of the multipart form, if the body
is such a form and has the field. -/
structure Request where
  path : String
  formFile : String → Option Bytes

/-- The files of the server process: the content stored under each path,
and whether `os.Create` can make a file at a path. -/
structure Storage where
  content : String → Option Bytes
  creatable : String → Bool

/-- What a handler writes to its `http.ResponseWriter`. -/
inductive Reply where
  /-- A text body with a status code. -/
  | text (status : Nat) (body : String)
  /-- The bytes of a file, with status 200. -/
  | file (status : Nat) (body : Bytes)
  deriving DecidableEq, Repr

/-- The file written by `os.Create(path)` followed by `io.Copy(out, file)`. -/
def Storage.write (fs : Storage) (path : String) (data : Bytes) : Storage :=
  { fs with content := fun p => if p = path then some data else fs.content p }

/-- The function `uploadHandler`.  The file name is `"uploads/"` followed by
`r.URL.Path[1:]`, the whole request path without its leading slash. -/
def uploadHandler (fs : Storage) (r : Request) : Reply × Storage :=
  match r.formFile "file" with
  | none => (Reply.text 500 "File upload failed\n", fs)
  | some file =>
    if fs.creatable ("uploads/" ++ r.path.drop 1) then
      (Reply.text 200 "File uploaded successfully",
        Storage.write fs ("uploads/" ++ r.path.drop 1) file)
    else
      (Reply.text 500 "Failed to save file\n", fs)

/-- The function `downloadHandler`.  The file name is again `"uploads/"`
followed by the whole request path without its leading slash. -/
def downloadHandler (fs : Storage) (r : Request) : Reply :=
  match fs.content ("uploads/" ++ r.path.drop 1) with
  | none => Reply.text 404 "404 page not found\n"
  | some data => Reply.file 200 data

/-! ## Auxiliary definitions and concrete environments used by the theorems -/

/-- An environment in which the transfer of the file `c` fails (the request
ends in a transport error) and every other call succeeds. -/
def envThirdFails : Env where
  now := fun w => 1000000 * (w.length : Int)
  httpGet := fun _ url =>
    if url = "http://t/download/c" then .error ⟨"connection refused"⟩ else .ok ⟨200, []⟩
  httpPost := fun _ url _ _ =>
    if url = "http://t/upload/c" then .error ⟨"connection refused"⟩ else .ok ⟨200, []⟩
  readFile := fun _ _ => .ok []
  removeAll := fun _ _ => none
  mkdir := fun _ _ => none
  create := fun _ _ => none
  start := fun _ _ => none
  kill := fun _ _ => none
  sched := fun _ => 0

/-- The number of calls a goroutine of `uploadFilesParallel` can still
make. -/
def UploadUnit.cost : UploadUnit → Nat
  | UploadUnit.spawned _ => 2
  | UploadUnit.loaded _ _ => 1

/-- The file a goroutine of `uploadFilesParallel` has still to read, if
any. -/
def UploadUnit.toRead : UploadUnit → Option String
  | UploadUnit.spawned file => some file
  | UploadUnit.loaded _ _ => none

/-- The post a goroutine of `uploadFilesParallel` has still to make for a
file it has read, if it is at that point. -/
def UploadUnit.owed (serverURL : String) : UploadUnit → Option Call
  | UploadUnit.spawned _ => none
  | UploadUnit.loaded file fileData =>
    some (Call.httpPost (serverURL ++ "/upload/" ++ file) "application/octet-stream" fileData)

/-- The calls of `http.Post` in a history, in call order. -/
def postCallsOf (w : World) : List Call :=
  w.filter fun c => match c with
    | Call.httpPost _ _ _ => true
    | _ => false

/-- The posts owed by the reads in `calls`, a stretch of history made after
the history `base`: for every call of `os.ReadFile` in it that the
environment answered with the content of the file, the post of that content
to the upload address of that file; nothing for a read that failed. -/
def owedPosts (env : Env) (serverURL : String) : World → World → List Call
  | _, [] => []
  | base, Call.readFile file :: calls =>
    (match env.readFile base file with
      | .ok fileData =>
        [Call.httpPost (serverURL ++ "/upload/" ++ file) "application/octet-stream" fileData]
      | .error _ => []) ++
      owedPosts env serverURL (base ++ [Call.readFile file]) calls
  | base, c :: calls => owedPosts env serverURL (base ++ [c]) calls

/-- An environment in which the local file `c` cannot be read, the post of
the file `d` is refused, every other call succeeds, and the scheduler moves
around the pool. -/
def envThirdUnreadable : Env where
  now := fun w => 1000000 * (w.length : Int)
  httpGet := fun _ _ => .ok ⟨200, []⟩
  httpPost := fun _ url _ _ =>
    if url = "http://t/upload/d" then .error ⟨"connection refused"⟩ else .ok ⟨200, []⟩
  readFile := fun _ name =>
    if name = "c" then .error ⟨"open c: no such file or directory"⟩ else .ok [1]
  removeAll := fun _ _ => none
  mkdir := fun _ _ => none
  create := fun _ _ => none
  start := fun _ _ => none
  kill := fun _ _ => none
  sched := fun w => w.length + 1

/-- The file of a goroutine of `uploadFilesParallel`. -/
def UploadUnit.file : UploadUnit → String
  | UploadUnit.spawned file => file
  | UploadUnit.loaded file _ => file

/-- An environment in which every request is answered with status 500
(Internal Server Error) and every other call succeeds. -/
def envAllStatus500 : Env where
  now := fun w => 1000000 * (w.length : Int)
  httpGet := fun _ _ => .ok ⟨500, []⟩
  httpPost := fun _ _ _ _ => .ok ⟨500, []⟩
  readFile := fun _ _ => .ok []
  removeAll := fun _ _ => none
  mkdir := fun _ _ => none
  create := fun _ _ => none
  start := fun _ _ => none
  kill := fun _ _ => none
  sched := fun _ => 0

/-- The map order that visits the entries as they are stored. -/
def storedOrder : MapOrder where
  visit := fun _ es => es
  visit_perm := fun _ es => List.Perm.refl es

/-- The table `{python_flask: [15], go_http: [10, 20]}`: the first
registered server was skipped in one of two rounds. -/
def tableFirstShorter : SampleTable :=
  ((∅ : SampleTable).insert "python_flask" [15]).insert "go_http" [10, 20]

/-- The table `{A: [10, 20], B: [15]}`. -/
def tableAB : SampleTable :=
  ((∅ : SampleTable).insert "A" [10, 20]).insert "B" [15]

/-- The commands passed to `cmd.Start`, in call order. -/
def startsOf (w : World) : List (List String) :=
  w.filterMap fun c => match c with
    | Call.start argv => some argv
    | _ => none

/-- An environment in which the launch of `python_fastapi` fails and every
other call succeeds. -/
def envSecondStartFails : Env where
  now := fun w => 1000000 * (w.length : Int)
  httpGet := fun _ _ => .ok ⟨200, []⟩
  httpPost := fun _ _ _ _ => .ok ⟨200, []⟩
  readFile := fun _ _ => .ok []
  removeAll := fun _ _ => none
  mkdir := fun _ _ => none
  create := fun _ _ => none
  start := fun _ argv =>
    if argv = ["python3", "servers/python_fastapi/main.py"] then
      some ⟨"exec: \"python3\": executable file not found in $PATH"⟩
    else none
  kill := fun _ _ => none
  sched := fun _ => 0

/-- A server storage holding no file, in which every file can be created. -/
def emptyStorage : Storage where
  content := fun _ => none
  creatable := fun _ => true

/-- The request `POST /upload/{id}` carrying `b` in the form field `file`. -/
def uploadRequest (id : String) (b : Bytes) : Request where
  path := "/upload/" ++ id
  formFile := fun field => if field = "file" then some b else none

/-- The request `GET /download/{id}`. -/
def downloadRequest (id : String) : Request where
  path := "/download/" ++ id
  formFile := fun _ => none

/-- The tables after one sample has been appended for `name` to each of the
four maps. -/
def Tables.appendAll (t : Tables) (name : String) (a b c d : Int) : Tables :=
  { uploadResults := SampleTable.appendSample t.uploadResults name a
    downloadResults := SampleTable.appendSample t.downloadResults name b
    uploadResultsParallel := SampleTable.appendSample t.uploadResultsParallel name c
    downloadResultsParallel := SampleTable.appendSample t.downloadResultsParallel name d }

/-- An environment in which the health request of `go_http` ends in a
transport error and every other call succeeds. -/
def envGoHttpDown : Env where
  now := fun w => 1000000 * (w.length : Int)
  httpGet := fun _ url =>
    if url = "http://localhost:9001/health" then .error ⟨"connection refused"⟩
    else .ok ⟨200, []⟩
  httpPost := fun _ _ _ _ => .ok ⟨200, []⟩
  readFile := fun _ _ => .ok []
  removeAll := fun _ _ => none
  mkdir := fun _ _ => none
  create := fun _ _ => none
  start := fun _ _ => none
  kill := fun _ _ => none
  sched := fun _ => 0

/-! ## Lemmas on sequential loops -/

theorem runAll_nil {α : Type} (body : α → World → Option GoError × World) (w : World) :
    runAll body [] w = w := rfl

theorem runAll_cons {α : Type} (body : α → World → Option GoError × World) (x : α)
    (xs : List α) (w : World) :
    runAll body (x :: xs) w = runAll body xs (body x w).2 := rfl

theorem runAll_append {α : Type} (body : α → World → Option GoError × World)
    (xs ys : List α) (w : World) :
    runAll body (xs ++ ys) w = runAll body ys (runAll body xs w) := by
  simp [runAll, List.foldl_append]

/-- A loop none of whose iterations fails runs them all and ends without an
error. -/
theorem forEachErr_all_ok {α : Type} (body : α → World → Option GoError × World) :
    ∀ (xs : List α) (w : World),
      (∀ (i : Nat) (hi : i < xs.length), (body xs[i] (runAll body (xs.take i) w)).1 = none) →
      forEachErr body xs w = (none, runAll body xs w) := by
  intro xs
  induction xs with
  | nil => intro w _; rfl
  | cons x xs ih =>
    intro w h
    have h0 : (body x w).1 = none := h 0 (Nat.succ_pos _)
    rcases hb : body x w with ⟨r, w1⟩
    rw [hb] at h0
    simp only at h0
    subst h0
    have hrec : forEachErr body xs w1 = (none, runAll body xs w1) := by
      apply ih
      intro i hi
      have := h (i + 1) (Nat.succ_lt_succ hi)
      simpa [runAll_cons, hb] using this
    simp [forEachErr, hb, hrec, runAll_cons]

/-- A loop whose first failing iteration is the one at position `k` runs the
iterations before `k`, then the failing one, and ends there with its
error. -/
theorem forEachErr_first_error {α : Type} (body : α → World → Option GoError × World) :
    ∀ (xs : List α) (w : World) (k : Nat) (hk : k < xs.length) (e : GoError),
      (∀ (i : Nat) (hi : i < xs.length), i < k →
        (body xs[i] (runAll body (xs.take i) w)).1 = none) →
      (body xs[k] (runAll body (xs.take k) w)).1 = some e →
      forEachErr body xs w = (some e, (body xs[k] (runAll body (xs.take k) w)).2) := by
  intro xs
  induction xs with
  | nil => intro w k hk; exact absurd hk (Nat.not_lt_zero _)
  | cons x xs ih =>
    intro w k hk e hpre hfail
    cases k with
    | zero =>
      simp only [List.take_zero, runAll_nil, List.getElem_cons_zero] at hfail ⊢
      rcases hb : body x w with ⟨r, w1⟩
      rw [hb] at hfail
      simp only at hfail
      subst hfail
      simp [forEachErr, hb]
    | succ k =>
      have h0 : (body x w).1 = none := hpre 0 (Nat.succ_pos _) (Nat.succ_pos _)
      rcases hb : body x w with ⟨r, w1⟩
      rw [hb] at h0
      simp only at h0
      subst h0
      have hk1 : k < xs.length := Nat.lt_of_succ_lt_succ hk
      have hrec := ih w1 k hk1 e
        (by
          intro i hi hik
          have := hpre (i + 1) (Nat.succ_lt_succ hi) (Nat.succ_lt_succ hik)
          simpa [runAll_cons, hb] using this)
        (by simpa [runAll_cons, hb] using hfail)
      simp only [forEachErr, hb, hrec]
      simp [runAll_cons, hb]

/-! ## Lemmas on the calls recorded by the sequential batches -/

theorem readsOf_append (w1 w2 : World) : readsOf (w1 ++ w2) = readsOf w1 ++ readsOf w2 := by
  simp [readsOf, List.filterMap_append]

theorem getsOf_append (w1 w2 : World) : getsOf (w1 ++ w2) = getsOf w1 ++ getsOf w2 := by
  simp [getsOf, List.filterMap_append]

theorem postsOf_append (w1 w2 : World) : postsOf (w1 ++ w2) = postsOf w1 ++ postsOf w2 := by
  simp [postsOf, List.filterMap_append]

/-- Every run of the upload loop body reads exactly its own file. -/
theorem readsOf_uploadOne (env : Env) (serverURL file : String) (w : World) :
    readsOf (uploadOne env serverURL file w).2 = readsOf w ++ [file] := by
  unfold uploadOne
  split
  · simp [readsOf_append, readsOf]
  · dsimp only
    split <;> simp [readsOf_append, readsOf]

/-- A run of the upload loop body posts to no address but that of its own
file, at most once. -/
theorem postsOf_uploadOne (env : Env) (serverURL file : String) (w : World) :
    postsOf (uploadOne env serverURL file w).2 = postsOf w ∨
      postsOf (uploadOne env serverURL file w).2 = postsOf w ++ [serverURL ++ "/upload/" ++ file] := by
  unfold uploadOne
  split
  · left; simp [postsOf_append, postsOf]
  · right
    dsimp only
    split <;> simp [postsOf_append, postsOf]

/-- A run of the upload loop body that succeeds has posted its file. -/
theorem postsOf_uploadOne_ok (env : Env) (serverURL file : String) (w : World)
    (h : (uploadOne env serverURL file w).1 = none) :
    postsOf (uploadOne env serverURL file w).2 = postsOf w ++ [serverURL ++ "/upload/" ++ file] := by
  unfold uploadOne at h ⊢
  split at h
  · simp at h
  · dsimp only
    split <;> simp [postsOf_append, postsOf]

/-- Every run of the download loop body requests exactly its own file. -/
theorem getsOf_downloadOne (env : Env) (serverURL file : String) (w : World) :
    getsOf (downloadOne env serverURL file w).2 = getsOf w ++ [serverURL ++ "/download/" ++ file] := by
  unfold downloadOne
  cases env.httpGet w (serverURL ++ "/download/" ++ file) <;> simp [getsOf_append, getsOf]

theorem readsOf_runAll_upload (env : Env) (serverURL : String) :
    ∀ (files : List String) (w : World),
      readsOf (runAll (uploadOne env serverURL) files w) = readsOf w ++ files := by
  intro files
  induction files with
  | nil => intro w; simp [runAll_nil]
  | cons f fs ih => intro w; rw [runAll_cons, ih, readsOf_uploadOne]; simp

theorem getsOf_runAll_download (env : Env) (serverURL : String) :
    ∀ (files : List String) (w : World),
      getsOf (runAll (downloadOne env serverURL) files w) =
        getsOf w ++ files.map (fun f => serverURL ++ "/download/" ++ f) := by
  intro files
  induction files with
  | nil => intro w; simp [runAll_nil]
  | cons f fs ih => intro w; rw [runAll_cons, ih, getsOf_downloadOne]; simp

/-- While every upload so far succeeded, the posts made are those of the
files handled, in order. -/
theorem postsOf_runAll_upload (env : Env) (serverURL : String) :
    ∀ (files : List String) (w : World),
      (∀ (i : Nat) (hi : i < files.length),
        (uploadOne env serverURL files[i] (runAll (uploadOne env serverURL) (files.take i) w)).1
          = none) →
      postsOf (runAll (uploadOne env serverURL) files w) =
        postsOf w ++ files.map (fun f => serverURL ++ "/upload/" ++ f) := by
  intro files
  induction files with
  | nil => intro w _; simp [runAll_nil]
  | cons f fs ih =>
    intro w h
    have h0 : (uploadOne env serverURL f w).1 = none := h 0 (Nat.succ_pos _)
    rw [runAll_cons, ih, postsOf_uploadOne_ok env serverURL f w h0]
    · simp
    · intro i hi
      have := h (i + 1) (Nat.succ_lt_succ hi)
      simpa [runAll_cons] using this

theorem take_succ_eq_take_append_getElem {α : Type} (xs : List α) (k : Nat) (hk : k < xs.length) :
    xs.take (k + 1) = xs.take k ++ [xs[k]] := by
  rw [List.take_succ]
  simp [List.getElem?_eq_getElem hk]

/-- One upload fails exactly when the read of the local file fails or, the
file read, the post fails; its error is then the error of that call. -/
theorem uploadOne_error_iff (env : Env) (serverURL file : String) (w : World) (e : GoError) :
    (uploadOne env serverURL file w).1 = some e ↔
      (env.readFile w file = .error e ∨
        ∃ fileData, env.readFile w file = .ok fileData ∧
          env.httpPost (w ++ [Call.readFile file]) (serverURL ++ "/upload/" ++ file)
            "application/octet-stream" fileData = .error e) := by
  unfold uploadOne
  cases hr : env.readFile w file with
  | error err => simp
  | ok fileData =>
    cases hp : env.httpPost (w ++ [Call.readFile file]) (serverURL ++ "/upload/" ++ file)
        "application/octet-stream" fileData with
    | error err => simp [hp]
    | ok resp => simp [hp]

/-- One download fails exactly when its request fails; its error is then the
error of the request. -/
theorem downloadOne_error_iff (env : Env) (serverURL file : String) (w : World) (e : GoError) :
    (downloadOne env serverURL file w).1 = some e ↔
      env.httpGet w (serverURL ++ "/download/" ++ file) = .error e := by
  unfold downloadOne
  cases hg : env.httpGet w (serverURL ++ "/download/" ++ file) with
  | error err => simp
  | ok resp => simp

/-! ## C1: the sequential batches are fail-fast -/

/-- C1.  Sequential batches are fail-fast, whatever the environment answers.
For `uploadFiles`: if the transfer at position `k` is the first that fails,
with error `e`, the call returns `(0, e)`, the world it leaves is the one
reached by running the transfers of positions `0 .. k-1` in order and then
the failed attempt at `k`; the files read are exactly those of positions
`0 .. k` and no address of a later position is posted to.  If no transfer
fails, the call returns the elapsed time and no error, after one transfer per
file in order.  The same holds for `downloadFiles` and its `GET` requests.
A transfer fails exactly when the environment fails its read or its request:
an upload when `os.ReadFile` or, after it, `http.Post` returns an error, a
download when `http.Get` returns an error. -/
theorem sequential_batch_fail_fast (env : Env) (serverURL : String) (files : List String)
    (w : World) :
    (∀ (k : Nat) (hk : k < files.length) (e : GoError),
      (∀ (i : Nat) (hi : i < files.length), i < k →
        (uploadOne env serverURL files[i]
          (runAll (uploadOne env serverURL) (files.take i) w)).1 = none) →
      (uploadOne env serverURL files[k]
        (runAll (uploadOne env serverURL) (files.take k) w)).1 = some e →
      (uploadFiles env serverURL files w).1 = (0, some e) ∧
      (uploadFiles env serverURL files w).2 =
        (uploadOne env serverURL files[k]
          (runAll (uploadOne env serverURL) (files.take k) w)).2 ∧
      readsOf (uploadFiles env serverURL files w).2 = readsOf w ++ files.take (k + 1) ∧
      (postsOf (uploadFiles env serverURL files w).2 =
          postsOf w ++ (files.take k).map (fun f => serverURL ++ "/upload/" ++ f) ∨
        postsOf (uploadFiles env serverURL files w).2 =
          postsOf w ++ (files.take (k + 1)).map (fun f => serverURL ++ "/upload/" ++ f))) ∧
    ((∀ (i : Nat) (hi : i < files.length),
        (uploadOne env serverURL files[i]
          (runAll (uploadOne env serverURL) (files.take i) w)).1 = none) →
      (uploadFiles env serverURL files w).1 =
        (env.now (runAll (uploadOne env serverURL) files w) - env.now w, none) ∧
      (uploadFiles env serverURL files w).2 = runAll (uploadOne env serverURL) files w ∧
      readsOf (uploadFiles env serverURL files w).2 = readsOf w ++ files ∧
      postsOf (uploadFiles env serverURL files w).2 =
        postsOf w ++ files.map (fun f => serverURL ++ "/upload/" ++ f)) ∧
    (∀ (k : Nat) (hk : k < files.length) (e : GoError),
      (∀ (i : Nat) (hi : i < files.length), i < k →
        (downloadOne env serverURL files[i]
          (runAll (downloadOne env serverURL) (files.take i) w)).1 = none) →
      (downloadOne env serverURL files[k]
        (runAll (downloadOne env serverURL) (files.take k) w)).1 = some e →
      (downloadFiles env serverURL files w).1 = (0, some e) ∧
      (downloadFiles env serverURL files w).2 =
        (downloadOne env serverURL files[k]
          (runAll (downloadOne env serverURL) (files.take k) w)).2 ∧
      getsOf (downloadFiles env serverURL files w).2 =
        getsOf w ++ (files.take (k + 1)).map (fun f => serverURL ++ "/download/" ++ f)) ∧
    ((∀ (i : Nat) (hi : i < files.length),
        (downloadOne env serverURL files[i]
          (runAll (downloadOne env serverURL) (files.take i) w)).1 = none) →
      (downloadFiles env serverURL files w).1 =
        (env.now (runAll (downloadOne env serverURL) files w) - env.now w, none) ∧
      (downloadFiles env serverURL files w).2 = runAll (downloadOne env serverURL) files w ∧
      getsOf (downloadFiles env serverURL files w).2 =
        getsOf w ++ files.map (fun f => serverURL ++ "/download/" ++ f)) ∧
    (∀ (file : String) (w1 : World) (e : GoError),
      (uploadOne env serverURL file w1).1 = some e ↔
        (env.readFile w1 file = .error e ∨
          ∃ fileData, env.readFile w1 file = .ok fileData ∧
            env.httpPost (w1 ++ [Call.readFile file]) (serverURL ++ "/upload/" ++ file)
              "application/octet-stream" fileData = .error e)) ∧
    (∀ (file : String) (w1 : World) (e : GoError),
      (downloadOne env serverURL file w1).1 = some e ↔
        env.httpGet w1 (serverURL ++ "/download/" ++ file) = .error e) := by
  refine ⟨?_, ?_, ?_, ?_, uploadOne_error_iff env serverURL, downloadOne_error_iff env serverURL⟩
  · intro k hk e hpre hfail
    have hloop := forEachErr_first_error (uploadOne env serverURL) files w k hk e hpre hfail
    have hpre2 : ∀ (i : Nat) (hi : i < (files.take k).length),
        (uploadOne env serverURL (files.take k)[i]
          (runAll (uploadOne env serverURL) ((files.take k).take i) w)).1 = none := by
      intro i hi
      have hik : i < k := by
        have := hi
        simp only [List.length_take] at this
        omega
      have := hpre i (by omega) hik
      simpa [List.getElem_take, List.take_take, Nat.min_eq_left (Nat.le_of_lt hik)] using this
    have hposts := postsOf_runAll_upload env serverURL (files.take k) w hpre2
    have hw : (uploadFiles env serverURL files w).2 =
        (uploadOne env serverURL files[k]
          (runAll (uploadOne env serverURL) (files.take k) w)).2 := by
      simp [uploadFiles, hloop]
    refine ⟨by simp [uploadFiles, hloop], hw, ?_, ?_⟩
    · rw [hw, readsOf_uploadOne, readsOf_runAll_upload,
        take_succ_eq_take_append_getElem files k hk]
      simp
    · rw [hw]
      rcases postsOf_uploadOne env serverURL files[k]
          (runAll (uploadOne env serverURL) (files.take k) w) with h1 | h1
      · left; rw [h1, hposts]
      · right
        rw [h1, hposts, take_succ_eq_take_append_getElem files k hk]
        simp only [List.map_append, List.map_cons, List.map_nil, List.append_assoc]
  · intro hall
    have hloop := forEachErr_all_ok (uploadOne env serverURL) files w hall
    have hw : (uploadFiles env serverURL files w).2 = runAll (uploadOne env serverURL) files w := by
      simp [uploadFiles, hloop]
    refine ⟨by simp [uploadFiles, hloop], hw, ?_, ?_⟩
    · rw [hw, readsOf_runAll_upload]
    · rw [hw, postsOf_runAll_upload env serverURL files w hall]
  · intro k hk e hpre hfail
    have hloop := forEachErr_first_error (downloadOne env serverURL) files w k hk e hpre hfail
    have hw : (downloadFiles env serverURL files w).2 =
        (downloadOne env serverURL files[k]
          (runAll (downloadOne env serverURL) (files.take k) w)).2 := by
      simp [downloadFiles, hloop]
    refine ⟨by simp [downloadFiles, hloop], hw, ?_⟩
    rw [hw, getsOf_downloadOne, getsOf_runAll_download,
      take_succ_eq_take_append_getElem files k hk]
    simp only [List.map_append, List.map_cons, List.map_nil, List.append_assoc]
  · intro hall
    have hloop := forEachErr_all_ok (downloadOne env serverURL) files w hall
    have hw : (downloadFiles env serverURL files w).2 =
        runAll (downloadOne env serverURL) files w := by
      simp [downloadFiles, hloop]
    refine ⟨by simp [downloadFiles, hloop], hw, ?_⟩
    rw [hw, getsOf_runAll_download]

/-- C1 at a batch of five files whose third transfer fails: two transfers
are made, the third is attempted, the fourth and fifth never are, and the
error comes back with elapsed time 0. -/
theorem sequential_batch_fail_fast_witness :
    (uploadFiles envThirdFails "http://t" ["a", "b", "c", "d", "e"] []).1
        = (0, some ⟨"connection refused"⟩) ∧
      readsOf (uploadFiles envThirdFails "http://t" ["a", "b", "c", "d", "e"] []).2
        = ["a", "b", "c"] ∧
      (downloadFiles envThirdFails "http://t" ["a", "b", "c", "d", "e"] []).1
        = (0, some ⟨"connection refused"⟩) ∧
      getsOf (downloadFiles envThirdFails "http://t" ["a", "b", "c", "d", "e"] []).2
        = ["http://t/download/a", "http://t/download/b", "http://t/download/c"] := by
  have hu := (sequential_batch_fail_fast envThirdFails "http://t" ["a", "b", "c", "d", "e"] []).1
    2 (by decide) ⟨"connection refused"⟩
    (by
      intro i hi hik
      interval_cases i <;> rfl)
    (by decide)
  have hd := (sequential_batch_fail_fast envThirdFails "http://t"
      ["a", "b", "c", "d", "e"] []).2.2.1
    2 (by decide) ⟨"connection refused"⟩
    (by
      intro i hi hik
      interval_cases i <;> rfl)
    (by decide)
  exact ⟨hu.1, hu.2.2.1, hd.1, hd.2.2⟩

/-! ## C2: the parallel batches never fail -/

/-- One move of a pool that is not empty: the scheduler splits the pool
around the goroutine it picks, which makes its next call; it then leaves the
pool or stays in its place. -/
theorem runPool_move {υ : Type} (step : υ → World → Option υ × World) (sched : World → Nat)
    (fuel : Nat) (pool : List υ) (w : World) (hne : pool ≠ []) :
    ∃ (l1 : List υ) (v : υ) (l2 : List υ), pool = l1 ++ v :: l2 ∧
      runPool step sched (fuel + 1) pool w =
        match step v w with
        | (none, w1) => runPool step sched fuel (l1 ++ l2) w1
        | (some v1, w1) => runPool step sched fuel (l1 ++ v1 :: l2) w1 := by
  cases pool with
  | nil => exact absurd rfl hne
  | cons u us =>
    have hi : sched w % (u :: us).length < (u :: us).length :=
      Nat.mod_lt _ (by simp)
    refine ⟨(u :: us).take (sched w % (u :: us).length), (u :: us)[sched w % (u :: us).length],
      (u :: us).drop (sched w % (u :: us).length + 1), ?_, ?_⟩
    · rw [← List.drop_eq_getElem_cons hi, List.take_append_drop]
    · simp only [runPool]
      rw [List.getElem?_eq_getElem hi]
      simp only [List.eraseIdx_eq_take_drop_succ]
      rcases step (u :: us)[sched w % (u :: us).length] w with ⟨r, w1⟩
      cases r with
      | none => rfl
      | some v1 =>
        simp only
        rw [List.set_eq_take_append_cons_drop, if_pos hi]

/-- With one move left per outstanding call, the upload pool runs until all
goroutines have returned, and the files read on the way are those the
goroutines had still to read. -/
theorem runPool_upload (env : Env) (serverURL : String) :
    ∀ (fuel : Nat) (pool : List UploadUnit) (w : World),
      (pool.map UploadUnit.cost).sum ≤ fuel →
      ∃ w1, runPool (stepUploadUnit env serverURL) env.sched fuel pool w = some w1 ∧
        (readsOf w1).Perm (readsOf w ++ pool.filterMap UploadUnit.toRead) := by
  intro fuel
  induction fuel with
  | zero =>
    intro pool w h
    cases pool with
    | nil => exact ⟨w, rfl, by simp⟩
    | cons u us =>
      cases u <;> simp [UploadUnit.cost] at h
  | succ fuel ih =>
    intro pool w h
    by_cases hne : pool = []
    · subst hne
      exact ⟨w, rfl, by simp⟩
    · obtain ⟨l1, v, l2, hpool, hrun⟩ :=
        runPool_move (stepUploadUnit env serverURL) env.sched fuel pool w hne
      subst hpool
      rw [hrun]
      simp only [List.map_append, List.map_cons, List.sum_append, List.sum_cons] at h
      cases v with
      | spawned file =>
        simp only [UploadUnit.cost] at h
        simp only [stepUploadUnit]
        cases env.readFile w file with
        | error err =>
          simp only
          obtain ⟨w1, h1, hp⟩ := ih (l1 ++ l2) (w ++ [Call.readFile file])
            (by simp only [List.map_append, List.sum_append]; omega)
          refine ⟨w1, h1, hp.trans ?_⟩
          simp only [readsOf_append, readsOf, List.filterMap_append, List.filterMap_cons,
            List.filterMap_nil, UploadUnit.toRead, List.append_assoc]
          refine List.Perm.append_left _ ?_
          rw [List.singleton_append]
          exact List.perm_middle.symm
        | ok fileData =>
          simp only
          obtain ⟨w1, h1, hp⟩ := ih (l1 ++ UploadUnit.loaded file fileData :: l2)
            (w ++ [Call.readFile file])
            (by
              simp only [List.map_append, List.map_cons, List.sum_append, List.sum_cons,
                UploadUnit.cost]
              omega)
          refine ⟨w1, h1, hp.trans ?_⟩
          simp only [readsOf_append, readsOf, List.filterMap_append, List.filterMap_cons,
            List.filterMap_nil, UploadUnit.toRead, List.append_assoc]
          refine List.Perm.append_left _ ?_
          rw [List.singleton_append]
          exact List.perm_middle.symm
      | loaded file fileData =>
        simp only [UploadUnit.cost] at h
        simp only [stepUploadUnit]
        cases env.httpPost w (serverURL ++ "/upload/" ++ file) "application/octet-stream"
            fileData with
        | error err =>
          simp only
          obtain ⟨w1, h1, hp⟩ := ih (l1 ++ l2)
            (w ++ [Call.httpPost (serverURL ++ "/upload/" ++ file) "application/octet-stream"
              fileData])
            (by simp only [List.map_append, List.sum_append]; omega)
          refine ⟨w1, h1, hp.trans ?_⟩
          simp [readsOf_append, readsOf, List.filterMap_append, UploadUnit.toRead]
        | ok resp =>
          simp only
          obtain ⟨w1, h1, hp⟩ := ih (l1 ++ l2)
            (w ++ [Call.httpPost (serverURL ++ "/upload/" ++ file) "application/octet-stream"
              fileData])
            (by simp only [List.map_append, List.sum_append]; omega)
          refine ⟨w1, h1, hp.trans ?_⟩
          simp [readsOf_append, readsOf, List.filterMap_append, UploadUnit.toRead]

/-- When every local file can be read, a run of the upload pool posts once
for every goroutine in it, whatever the posts answer. -/
theorem runPool_upload_posts (env : Env) (serverURL : String)
    (hread : ∀ (h : World) (file : String), ∃ fileData, env.readFile h file = .ok fileData) :
    ∀ (fuel : Nat) (pool : List UploadUnit) (w w1 : World),
      runPool (stepUploadUnit env serverURL) env.sched fuel pool w = some w1 →
      (postsOf w1).Perm
        (postsOf w ++ pool.map (fun u => serverURL ++ "/upload/" ++ UploadUnit.file u)) := by
  intro fuel
  induction fuel with
  | zero =>
    intro pool w w1 h
    cases pool with
    | nil =>
      simp only [runPool, Option.some.injEq] at h
      subst h
      simp
    | cons u us => simp [runPool] at h
  | succ fuel ih =>
    intro pool w w1 h
    by_cases hne : pool = []
    · subst hne
      simp only [runPool, Option.some.injEq] at h
      subst h
      simp
    · obtain ⟨l1, v, l2, hpool, hrun⟩ :=
        runPool_move (stepUploadUnit env serverURL) env.sched fuel pool w hne
      subst hpool
      rw [hrun] at h
      cases v with
      | spawned file =>
        obtain ⟨fileData, hr⟩ := hread w file
        simp only [stepUploadUnit, hr] at h
        refine (ih _ _ _ h).trans ?_
        simp [postsOf_append, postsOf, UploadUnit.file]
      | loaded file fileData =>
        have hstep : stepUploadUnit env serverURL (UploadUnit.loaded file fileData) w =
            (none, w ++ [Call.httpPost (serverURL ++ "/upload/" ++ file)
              "application/octet-stream" fileData]) := by
          simp only [stepUploadUnit]
          split <;> rfl
        rw [hstep] at h
        refine (ih _ _ _ h).trans ?_
        have hone : postsOf [Call.httpPost (serverURL ++ "/upload/" ++ file)
            "application/octet-stream" fileData] = [serverURL ++ "/upload/" ++ file] := rfl
        rw [postsOf_append, hone, List.append_assoc]
        refine List.Perm.append_left _ ?_
        simp only [List.map_append, List.map_cons, UploadUnit.file, List.singleton_append]
        exact List.perm_middle.symm

/-- With one move left per goroutine, the download pool runs until all
goroutines have returned, and the requests made on the way are one per
goroutine. -/
theorem runPool_download (env : Env) (serverURL : String) :
    ∀ (fuel : Nat) (pool : List String) (w : World),
      pool.length ≤ fuel →
      ∃ w1, runPool (stepDownloadUnit env serverURL) env.sched fuel pool w = some w1 ∧
        (getsOf w1).Perm (getsOf w ++ pool.map (fun f => serverURL ++ "/download/" ++ f)) := by
  intro fuel
  induction fuel with
  | zero =>
    intro pool w h
    cases pool with
    | nil => exact ⟨w, rfl, by simp⟩
    | cons u us => simp at h
  | succ fuel ih =>
    intro pool w h
    by_cases hne : pool = []
    · subst hne
      exact ⟨w, rfl, by simp⟩
    · obtain ⟨l1, v, l2, hpool, hrun⟩ :=
        runPool_move (stepDownloadUnit env serverURL) env.sched fuel pool w hne
      subst hpool
      rw [hrun]
      have hstep : stepDownloadUnit env serverURL v w =
          (none, w ++ [Call.httpGet (serverURL ++ "/download/" ++ v)]) := by
        simp only [stepDownloadUnit]
        split <;> rfl
      rw [hstep]
      simp only [List.length_append, List.length_cons] at h
      obtain ⟨w1, h1, hp⟩ := ih (l1 ++ l2) (w ++ [Call.httpGet (serverURL ++ "/download/" ++ v)])
        (by simp only [List.length_append]; omega)
      refine ⟨w1, h1, hp.trans ?_⟩
      have hone : getsOf [Call.httpGet (serverURL ++ "/download/" ++ v)] =
          [serverURL ++ "/download/" ++ v] := rfl
      rw [getsOf_append, hone, List.append_assoc]
      refine List.Perm.append_left _ ?_
      simp only [List.map_append, List.map_cons, List.singleton_append]
      exact List.perm_middle.symm

theorem owedPosts_read_ok (env : Env) (serverURL : String) (base calls : World)
    (file : String) (fileData : Bytes) (h : env.readFile base file = .ok fileData) :
    owedPosts env serverURL base (Call.readFile file :: calls) =
      Call.httpPost (serverURL ++ "/upload/" ++ file) "application/octet-stream" fileData ::
        owedPosts env serverURL (base ++ [Call.readFile file]) calls := by
  simp [owedPosts, h]

theorem owedPosts_read_error (env : Env) (serverURL : String) (base calls : World)
    (file : String) (err : GoError) (h : env.readFile base file = .error err) :
    owedPosts env serverURL base (Call.readFile file :: calls) =
      owedPosts env serverURL (base ++ [Call.readFile file]) calls := by
  simp [owedPosts, h]

theorem owedPosts_post (env : Env) (serverURL : String) (base calls : World)
    (url contentType : String) (body : Bytes) :
    owedPosts env serverURL base (Call.httpPost url contentType body :: calls) =
      owedPosts env serverURL (base ++ [Call.httpPost url contentType body]) calls := by
  simp [owedPosts]

/-- Whatever the reads and the posts answer, a run of the upload pool makes
exactly the posts owed: one for every read of the run that succeeded, with
the content read, and one for every goroutine that had read its file before
the run.  A read or a post that fails takes no post away from another
goroutine. -/
theorem runPool_upload_owed (env : Env) (serverURL : String) :
    ∀ (fuel : Nat) (pool : List UploadUnit) (w w1 : World),
      runPool (stepUploadUnit env serverURL) env.sched fuel pool w = some w1 →
      ∃ new : World, w1 = w ++ new ∧
        (postCallsOf new).Perm
          (owedPosts env serverURL w new ++ pool.filterMap (UploadUnit.owed serverURL)) := by
  intro fuel
  induction fuel with
  | zero =>
    intro pool w w1 h
    cases pool with
    | nil =>
      simp only [runPool, Option.some.injEq] at h
      subst h
      exact ⟨[], by simp, by simp [postCallsOf, owedPosts]⟩
    | cons u us => simp [runPool] at h
  | succ fuel ih =>
    intro pool w w1 h
    by_cases hne : pool = []
    · subst hne
      simp only [runPool, Option.some.injEq] at h
      subst h
      exact ⟨[], by simp, by simp [postCallsOf, owedPosts]⟩
    · obtain ⟨l1, v, l2, hpool, hrun⟩ :=
        runPool_move (stepUploadUnit env serverURL) env.sched fuel pool w hne
      subst hpool
      rw [hrun] at h
      cases v with
      | spawned file =>
        cases hr : env.readFile w file with
        | error err =>
          simp only [stepUploadUnit, hr] at h
          obtain ⟨new, hw, hp⟩ := ih _ _ _ h
          refine ⟨Call.readFile file :: new, by rw [hw]; simp, ?_⟩
          rw [owedPosts_read_error env serverURL w new file err hr]
          have hfilter : postCallsOf (Call.readFile file :: new) = postCallsOf new := by
            simp [postCallsOf]
          rw [hfilter]
          refine hp.trans ?_
          simp only [List.filterMap_append, List.filterMap_cons, UploadUnit.owed]
          exact List.Perm.refl _
        | ok fileData =>
          simp only [stepUploadUnit, hr] at h
          obtain ⟨new, hw, hp⟩ := ih _ _ _ h
          refine ⟨Call.readFile file :: new, by rw [hw]; simp, ?_⟩
          rw [owedPosts_read_ok env serverURL w new file fileData hr]
          have hfilter : postCallsOf (Call.readFile file :: new) = postCallsOf new := by
            simp [postCallsOf]
          rw [hfilter]
          refine hp.trans ?_
          simp only [List.filterMap_append, List.filterMap_cons, UploadUnit.owed]
          rw [← List.append_assoc, List.cons_append, ← List.append_assoc]
          exact List.perm_middle
      | loaded file fileData =>
        have hstep : stepUploadUnit env serverURL (UploadUnit.loaded file fileData) w =
            (none, w ++ [Call.httpPost (serverURL ++ "/upload/" ++ file)
              "application/octet-stream" fileData]) := by
          simp only [stepUploadUnit]
          split <;> rfl
        rw [hstep] at h
        obtain ⟨new, hw, hp⟩ := ih _ _ _ h
        refine ⟨Call.httpPost (serverURL ++ "/upload/" ++ file) "application/octet-stream"
          fileData :: new, by rw [hw]; simp, ?_⟩
        rw [owedPosts_post]
        have hfilter : postCallsOf (Call.httpPost (serverURL ++ "/upload/" ++ file)
            "application/octet-stream" fileData :: new) =
            Call.httpPost (serverURL ++ "/upload/" ++ file) "application/octet-stream"
              fileData :: postCallsOf new := by
          simp [postCallsOf]
        rw [hfilter]
        refine (hp.cons _).trans ?_
        simp only [List.filterMap_append, List.filterMap_cons, UploadUnit.owed]
        rw [← List.append_assoc, ← List.append_assoc]
        exact List.perm_middle.symm

/-- C2.  Parallel batches never fail on unit errors.  For every environment
(every outcome of every read and request, and every interleaving chosen by
the scheduler), `uploadFilesParallel` returns, with an elapsed time and no
error, after one goroutine per file has run: the local files read are the
file list up to order, whichever reads fail; the posts made are exactly one
for each read that succeeded, carrying the content read, whichever reads and
posts fail; so when the reads succeed the addresses posted to are those of
all the files.  `downloadFilesParallel` returns, with an elapsed time and no
error, after one `GET` per file, whichever of them fail. -/
theorem parallel_batch_never_fails (env : Env) (serverURL : String) (files : List String)
    (w : World) :
    (∃ w1, uploadFilesParallel env serverURL files w = .ok ((env.now w1 - env.now w, none), w1) ∧
      (readsOf w1).Perm (readsOf w ++ files) ∧
      (∃ new : World, w1 = w ++ new ∧ (readsOf new).Perm files ∧
        (postCallsOf new).Perm (owedPosts env serverURL w new)) ∧
      ((∀ (h : World) (file : String), ∃ fileData, env.readFile h file = .ok fileData) →
        (postsOf w1).Perm (postsOf w ++ files.map (fun f => serverURL ++ "/upload/" ++ f)))) ∧
    (∃ w1, downloadFilesParallel env serverURL files w =
        .ok ((env.now w1 - env.now w, none), w1) ∧
      (getsOf w1).Perm (getsOf w ++ files.map (fun f => serverURL ++ "/download/" ++ f))) := by
  constructor
  · obtain ⟨w1, h1, hp⟩ := runPool_upload env serverURL (2 * files.length)
      (files.map UploadUnit.spawned) w
      (by
        have : ∀ l : List String,
            ((l.map UploadUnit.spawned).map UploadUnit.cost).sum = 2 * l.length := by
          intro l
          induction l with
          | nil => rfl
          | cons a l ih =>
            simp only [List.map_cons, List.sum_cons, List.length_cons, ih, UploadUnit.cost]
            omega
        rw [this])
    have hreads : (readsOf w1).Perm (readsOf w ++ files) := by
      refine hp.trans ?_
      simp [List.filterMap_map, Function.comp_def, UploadUnit.toRead]
    refine ⟨w1, by simp [uploadFilesParallel, h1], hreads, ?_, ?_⟩
    · obtain ⟨new, hw, howed⟩ := runPool_upload_owed env serverURL _ _ _ _ h1
      refine ⟨new, hw, ?_, ?_⟩
      · rw [hw, readsOf_append] at hreads
        exact (List.perm_append_left_iff _).mp hreads
      · have hnone : (files.map UploadUnit.spawned).filterMap (UploadUnit.owed serverURL) = [] := by
          simp [List.filterMap_map, Function.comp_def, UploadUnit.owed]
        rw [hnone, List.append_nil] at howed
        exact howed
    · intro hread
      have := runPool_upload_posts env serverURL hread _ _ _ _ h1
      simpa [Function.comp_def, UploadUnit.file] using this
  · obtain ⟨w1, h1, hp⟩ := runPool_download env serverURL files.length files w (Nat.le_refl _)
    exact ⟨w1, by simp [downloadFilesParallel, h1], hp⟩

/-- C2 at two batches of five files.  In the first the file `c` cannot be
read and the post of `d` is refused: the call returns no error, all five
files are read, and the posts made are those owed by the four reads that
succeeded.  In the second the post of the third file fails: the call returns
no error and all five addresses were posted to. -/
theorem parallel_batch_never_fails_witness :
    (∃ w1, uploadFilesParallel envThirdUnreadable "http://t" ["a", "b", "c", "d", "e"] [] =
        .ok ((envThirdUnreadable.now w1 - envThirdUnreadable.now [], none), w1) ∧
      (readsOf w1).Perm ["a", "b", "c", "d", "e"] ∧
      (postCallsOf w1).Perm (owedPosts envThirdUnreadable "http://t" [] w1)) ∧
    (∃ w1, uploadFilesParallel envThirdFails "http://t" ["a", "b", "c", "d", "e"] [] =
        .ok ((envThirdFails.now w1 - envThirdFails.now [], none), w1) ∧
      (postCallsOf w1).Perm (owedPosts envThirdFails "http://t" [] w1) ∧
      (postsOf w1).Perm ["http://t/upload/a", "http://t/upload/b", "http://t/upload/c",
        "http://t/upload/d", "http://t/upload/e"]) := by
  constructor
  · obtain ⟨w1, h1, _, ⟨new, hw, hreads, howed⟩, _⟩ :=
      (parallel_batch_never_fails envThirdUnreadable "http://t" ["a", "b", "c", "d", "e"] []).1
    rw [List.nil_append] at hw
    subst hw
    exact ⟨w1, h1, hreads, howed⟩
  · obtain ⟨w1, h1, _, ⟨new, hw, _, howed⟩, h3⟩ :=
      (parallel_batch_never_fails envThirdFails "http://t" ["a", "b", "c", "d", "e"] []).1
    rw [List.nil_append] at hw
    subst hw
    exact ⟨w1, h1, howed, h3 (fun _ _ => ⟨[], rfl⟩)⟩

/-- A parallel upload of five files in which the file `c` cannot be read and
the post of `d` is refused: the call returns no error, all five files are
read, and the files `a`, `b`, `d` and `e` are posted. -/
theorem parallel_upload_isolation_example :
    ∃ (d : Int) (w1 : World),
      uploadFilesParallel envThirdUnreadable "http://t" ["a", "b", "c", "d", "e"] [] =
        .ok ((d, none), w1) ∧
      readsOf w1 = ["b", "c", "e", "a", "d"] ∧
      postsOf w1 = ["http://t/upload/b", "http://t/upload/a", "http://t/upload/e",
        "http://t/upload/d"] ∧
      owedPosts envThirdUnreadable "http://t" [] w1 =
        [Call.httpPost "http://t/upload/b" "application/octet-stream" [1],
          Call.httpPost "http://t/upload/e" "application/octet-stream" [1],
          Call.httpPost "http://t/upload/a" "application/octet-stream" [1],
          Call.httpPost "http://t/upload/d" "application/octet-stream" [1]] := by
  refine ⟨_, _, rfl, ?_, ?_, ?_⟩ <;> decide

/-! ## C4: the workload grows as a prefix -/

/-- A value in the range of a 64-bit `int` is not changed by wrapping. -/
theorem wrapInt64_of_inRange (x : Int) (h1 : -9223372036854775808 ≤ x)
    (h2 : x ≤ 9223372036854775807) : wrapInt64 x = x := by
  unfold wrapInt64
  omega

/-- For a round that is not negative and whose product with 1000 fits a
64-bit `int`, the slice is the clamped prefix. -/
theorem currentFiles_eq (files : List String) (r : Int) (hr : 0 ≤ r)
    (hmax : 1000 * r ≤ 9223372036854775807) :
    currentFiles r files = some (files.take (min (1000 * r.toNat) files.length)) := by
  unfold currentFiles
  rw [wrapInt64_of_inRange (1000 * r) (by omega) hmax]
  by_cases hgt : 1000 * r > (files.length : Int)
  · have hmin : min (1000 * r.toNat) files.length = files.length := by omega
    simp only [hgt, if_true, hmin]
    rw [if_neg (by omega)]
    simp
  · have hmin : min (1000 * r.toNat) files.length = (1000 * r).toNat := by omega
    simp only [hgt, if_false, hmin]
    rw [if_neg (by omega)]

/-- C4, as stated, fails for rounds whose product with 1000 does not fit a
64-bit `int`.  With the one-file file set and rounds `1 < 2^61`: the workload
of round 1 is the file; in round `2^61` the product wraps to 0, the workload
is empty, which is neither the first `min(1000 * 2^61, 1) = 1` files nor an
extension of the workload of round 1.  In round `2^63 - 1` the product wraps
to `-1000` and the slice expression panics. -/
theorem workload_overflow_counterexample :
    (1 : Int) ≤ 1 ∧ (1 : Int) < 2305843009213693952 ∧
    currentFiles 1 ["data/file_1.json"] = some ["data/file_1.json"] ∧
    wrapInt64 (1000 * 2305843009213693952) = 0 ∧
    currentFiles 2305843009213693952 ["data/file_1.json"] = some [] ∧
    min (1000 * (2305843009213693952 : Int).toNat) ["data/file_1.json"].length = 1 ∧
    ¬ (["data/file_1.json"] <+: ([] : List String)) ∧
    wrapInt64 (1000 * 9223372036854775807) = -1000 ∧
    currentFiles 9223372036854775807 ["data/file_1.json"] = none := by
  refine ⟨by decide, by decide, by decide, by decide, by decide, by decide, by simp,
    by decide, by decide⟩

/-- C4, amended.  Workload growth is a monotone prefix as long as the product
`1000 * round` fits a 64-bit `int`.  For every file set and all rounds
`1 ≤ r1 < r2` with `1000 * r2 ≤ 2^63 - 1` (so for the rounds 1 to 100 that
`main` runs), `runTestRound` runs its loop in round `r` over the first
`min(1000 * r, len(files))` files of the file set, the workload of `r1` is a
prefix of the workload of `r2`, and it is not longer. -/
theorem workload_monotone_prefix (env : Env) (files : List String) (w : World) (t : Tables)
    (r1 r2 : Int) (h1 : 1 ≤ r1) (h12 : r1 < r2) (hmax : 1000 * r2 ≤ 9223372036854775807) :
    currentFiles r1 files = some (files.take (min (1000 * r1.toNat) files.length)) ∧
    currentFiles r2 files = some (files.take (min (1000 * r2.toNat) files.length)) ∧
    runTestRound env r1 files w t =
      roundLoop env (files.take (min (1000 * r1.toNat) files.length)) servers w t ∧
    runTestRound env r2 files w t =
      roundLoop env (files.take (min (1000 * r2.toNat) files.length)) servers w t ∧
    (files.take (min (1000 * r1.toNat) files.length)).length
      = min (1000 * r1.toNat) files.length ∧
    (files.take (min (1000 * r2.toNat) files.length)).length
      = min (1000 * r2.toNat) files.length ∧
    files.take (min (1000 * r1.toNat) files.length) <+:
      files.take (min (1000 * r2.toNat) files.length) ∧
    (files.take (min (1000 * r1.toNat) files.length)).length ≤
      (files.take (min (1000 * r2.toNat) files.length)).length := by
  have e1 := currentFiles_eq files r1 (by omega) (by omega)
  have e2 := currentFiles_eq files r2 (by omega) hmax
  have hle : min (1000 * r1.toNat) files.length ≤ min (1000 * r2.toNat) files.length := by
    omega
  refine ⟨e1, e2, by simp [runTestRound, e1], by simp [runTestRound, e2], ?_, ?_,
    List.take_prefix_take_left files hle, ?_⟩
  · simp
  · simp
  · simp only [List.length_take]
    omega

/-- C4, amended, on the file set of `main` (1001 files) and rounds 1 and 2:
the workloads have 1000 and 1001 files. -/
theorem workload_monotone_prefix_witness :
    (1 : Int) ≤ 1 ∧ (1 : Int) < 2 ∧ (1000 * 2 : Int) ≤ 9223372036854775807 ∧
    (testFiles.take (min (1000 * (1 : Int).toNat) testFiles.length)).length = 1000 ∧
    (testFiles.take (min (1000 * (2 : Int).toNat) testFiles.length)).length = 1001 ∧
    testFiles.take (min (1000 * (1 : Int).toNat) testFiles.length) <+:
      testFiles.take (min (1000 * (2 : Int).toNat) testFiles.length) := by
  have h := workload_monotone_prefix envThirdFails testFiles [] ⟨∅, ∅, ∅, ∅⟩ 1 2
    (by decide) (by decide) (by decide)
  have hlen : testFiles.length = 1001 := by simp [testFiles]
  refine ⟨by decide, by decide, by decide, ?_, ?_, h.2.2.2.2.2.2.1⟩
  · rw [h.2.2.2.2.1, hlen]; decide
  · rw [h.2.2.2.2.2.1, hlen]; decide

/-! ## C5: the availability probe -/

/-- C5, as stated, fails: the health request of `go_http` is answered with
status 500, which is not a success status, and the probe returns `true`. -/
theorem probe_status_counterexample :
    envAllStatus500.httpGet [] ("http://localhost:9001" ++ "/health") = .ok ⟨500, []⟩ ∧
    ¬ (200 ≤ (500 : Nat) ∧ (500 : Nat) < 300) ∧
    (checkServerAvailability envAllStatus500 "http://localhost:9001" []).1 = true := by
  refine ⟨rfl, by decide, rfl⟩

/-- C5, amended.  `checkServerAvailability` always returns a boolean (it is a
total function and raises nothing); the result is `false` exactly when the
health request ends in an error, and `true` exactly when the request is
answered, whatever the status of the response.  In both cases the one call it
makes is the `GET` of the health path. -/
theorem probe_false_iff_request_error (env : Env) (serverURL : String) (w : World) :
    ((checkServerAvailability env serverURL w).1 = false ↔
      ∃ err, env.httpGet w (serverURL ++ "/health") = .error err) ∧
    ((checkServerAvailability env serverURL w).1 = true ↔
      ∃ resp, env.httpGet w (serverURL ++ "/health") = .ok resp) ∧
    (∀ resp, env.httpGet w (serverURL ++ "/health") = .ok resp →
      (checkServerAvailability env serverURL w).1 = true) ∧
    (checkServerAvailability env serverURL w).2 = w ++ [Call.httpGet (serverURL ++ "/health")] := by
  unfold checkServerAvailability
  cases h : env.httpGet w (serverURL ++ "/health") with
  | error err => simp
  | ok resp => simp

/-! ## C6: what counts as a transfer error -/

/-- C6, as stated, fails: every upload and download request of the batch is
answered with status 500, and `uploadFiles` and `downloadFiles` return no
error. -/
theorem status_not_error_counterexample :
    envAllStatus500.httpPost [Call.readFile "a"] ("http://localhost:9001" ++ "/upload/" ++ "a")
      "application/octet-stream" [] = .ok ⟨500, []⟩ ∧
    (uploadFiles envAllStatus500 "http://localhost:9001" ["a"] []).1.2 = none ∧
    envAllStatus500.httpGet [] ("http://localhost:9001" ++ "/download/" ++ "a") = .ok ⟨500, []⟩ ∧
    (downloadFiles envAllStatus500 "http://localhost:9001" ["a"] []).1.2 = none := by
  refine ⟨rfl, rfl, rfl, rfl⟩

/-- An error returned by the upload loop is the error of a failed read or of
a failed request. -/
theorem forEachErr_uploadOne_error (env : Env) (serverURL : String) :
    ∀ (files : List String) (w : World) (e : GoError),
      (forEachErr (uploadOne env serverURL) files w).1 = some e →
      ∃ file ∈ files, ∃ h : World,
        env.readFile h file = .error e ∨
        ∃ fileData, env.httpPost h (serverURL ++ "/upload/" ++ file)
          "application/octet-stream" fileData = .error e := by
  intro files
  induction files with
  | nil => intro w e h; simp [forEachErr] at h
  | cons f fs ih =>
    intro w e h
    simp only [forEachErr] at h
    cases hr : env.readFile w f with
    | error err =>
      simp only [uploadOne, hr] at h
      exact ⟨f, List.mem_cons_self _ _, w, Or.inl (by simp at h; rw [hr, h])⟩
    | ok fileData =>
      cases hp : env.httpPost (w ++ [Call.readFile f]) (serverURL ++ "/upload/" ++ f)
          "application/octet-stream" fileData with
      | error err =>
        simp only [uploadOne, hr, hp] at h
        exact ⟨f, List.mem_cons_self _ _, w ++ [Call.readFile f],
          Or.inr ⟨fileData, by simp at h; rw [hp, h]⟩⟩
      | ok resp =>
        simp only [uploadOne, hr, hp] at h
        obtain ⟨file, hmem, hh⟩ := ih _ e h
        exact ⟨file, List.mem_cons_of_mem _ hmem, hh⟩

/-- An error returned by the download loop is the error of a failed
request. -/
theorem forEachErr_downloadOne_error (env : Env) (serverURL : String) :
    ∀ (files : List String) (w : World) (e : GoError),
      (forEachErr (downloadOne env serverURL) files w).1 = some e →
      ∃ file ∈ files, ∃ h : World,
        env.httpGet h (serverURL ++ "/download/" ++ file) = .error e := by
  intro files
  induction files with
  | nil => intro w e h; simp [forEachErr] at h
  | cons f fs ih =>
    intro w e h
    simp only [forEachErr] at h
    cases hg : env.httpGet w (serverURL ++ "/download/" ++ f) with
    | error err =>
      simp only [downloadOne, hg] at h
      exact ⟨f, List.mem_cons_self _ _, w, by simp at h; rw [hg, h]⟩
    | ok resp =>
      simp only [downloadOne, hg] at h
      obtain ⟨file, hmem, hh⟩ := ih _ e h
      exact ⟨file, List.mem_cons_of_mem _ hmem, hh⟩

/-- C6, amended.  A non-success status does not count as a transfer error.
`uploadFiles` returns an error only when reading a local file or a request
itself fails (the error returned is that failure), and `downloadFiles` only
when a request itself fails; when every read succeeds and every request is
answered, whatever the status of the answers, the batch returns no error.
When a sequential batch does return an error, the loop of `runTestRound`
stops at that server and returns the same error.  And a failed read or a
failed request is an error of the batch: if the read or the request of the
first file fails, the batch returns that error with elapsed time 0. -/
theorem sequential_error_only_from_read_or_request (env : Env) (serverURL : String)
    (files : List String) (w : World) :
    (∀ e, (uploadFiles env serverURL files w).1.2 = some e →
      ∃ file ∈ files, ∃ h : World,
        env.readFile h file = .error e ∨
        ∃ fileData, env.httpPost h (serverURL ++ "/upload/" ++ file)
          "application/octet-stream" fileData = .error e) ∧
    (∀ e, (downloadFiles env serverURL files w).1.2 = some e →
      ∃ file ∈ files, ∃ h : World,
        env.httpGet h (serverURL ++ "/download/" ++ file) = .error e) ∧
    ((∀ (h : World) (file : String), ∃ fileData, env.readFile h file = .ok fileData) →
      (∀ (h : World) (url contentType : String) (body : Bytes),
        ∃ resp, env.httpPost h url contentType body = .ok resp) →
      (uploadFiles env serverURL files w).1.2 = none) ∧
    ((∀ (h : World) (url : String), ∃ resp, env.httpGet h url = .ok resp) →
      (downloadFiles env serverURL files w).1.2 = none) ∧
    (∀ (server : Server) (rest : List Server) (t : Tables) (e : GoError) (d : Int)
        (w1 w2 w3 : World),
      clearUploads env w = (none, w1) →
      checkServerAvailability env server.url w1 = (true, w2) →
      uploadFiles env server.url files w2 = ((d, some e), w3) →
      roundLoop env files (server :: rest) w t = .ok (some e, w3, t)) ∧
    (∀ (server : Server) (rest : List Server) (t : Tables) (e : GoError) (d1 d2 : Int)
        (w1 w2 w3 w4 : World),
      clearUploads env w = (none, w1) →
      checkServerAvailability env server.url w1 = (true, w2) →
      uploadFiles env server.url files w2 = ((d1, none), w3) →
      downloadFiles env server.url files w3 = ((d2, some e), w4) →
      roundLoop env files (server :: rest) w t = .ok (some e, w4, t)) ∧
    (∀ (file : String) (rest : List String) (e : GoError),
      (env.readFile w file = .error e ∨
        ∃ fileData, env.readFile w file = .ok fileData ∧
          env.httpPost (w ++ [Call.readFile file]) (serverURL ++ "/upload/" ++ file)
            "application/octet-stream" fileData = .error e) →
      (uploadFiles env serverURL (file :: rest) w).1 = (0, some e)) ∧
    (∀ (file : String) (rest : List String) (e : GoError),
      env.httpGet w (serverURL ++ "/download/" ++ file) = .error e →
      (downloadFiles env serverURL (file :: rest) w).1 = (0, some e)) := by
  have hup : ∀ e, (uploadFiles env serverURL files w).1.2 = some e →
      ∃ file ∈ files, ∃ h : World,
        env.readFile h file = .error e ∨
        ∃ fileData, env.httpPost h (serverURL ++ "/upload/" ++ file)
          "application/octet-stream" fileData = .error e := by
    intro e h
    apply forEachErr_uploadOne_error env serverURL files w e
    unfold uploadFiles at h
    rcases hl : forEachErr (uploadOne env serverURL) files w with ⟨r, w1⟩
    rw [hl] at h
    cases r with
    | none => simp at h
    | some e1 => simpa using h
  have hdown : ∀ e, (downloadFiles env serverURL files w).1.2 = some e →
      ∃ file ∈ files, ∃ h : World,
        env.httpGet h (serverURL ++ "/download/" ++ file) = .error e := by
    intro e h
    apply forEachErr_downloadOne_error env serverURL files w e
    unfold downloadFiles at h
    rcases hl : forEachErr (downloadOne env serverURL) files w with ⟨r, w1⟩
    rw [hl] at h
    cases r with
    | none => simp at h
    | some e1 => simpa using h
  refine ⟨hup, hdown, ?_, ?_, ?_, ?_, ?_, ?_⟩
  · intro hread hpost
    cases hres : (uploadFiles env serverURL files w).1.2 with
    | none => rfl
    | some e =>
      obtain ⟨file, _, h, hh⟩ := hup e hres
      rcases hh with hh | ⟨fileData, hh⟩
      · obtain ⟨d, hd⟩ := hread h file
        rw [hd] at hh
        cases hh
      · obtain ⟨r, hr⟩ := hpost h (serverURL ++ "/upload/" ++ file) "application/octet-stream"
          fileData
        rw [hr] at hh
        cases hh
  · intro hget
    cases hres : (downloadFiles env serverURL files w).1.2 with
    | none => rfl
    | some e =>
      obtain ⟨file, _, h, hh⟩ := hdown e hres
      obtain ⟨r, hr⟩ := hget h (serverURL ++ "/download/" ++ file)
      rw [hr] at hh
      cases hh
  · intro server rest t e d w1 w2 w3 hc hp hu
    simp only [roundLoop, hc, hp, hu]
  · intro server rest t e d1 d2 w1 w2 w3 w4 hc hp hu hd
    simp only [roundLoop, hc, hp, hu, hd]
  · intro file rest e hfail
    have h1 : (uploadOne env serverURL file w).1 = some e :=
      (uploadOne_error_iff env serverURL file w e).mpr hfail
    rcases hb : uploadOne env serverURL file w with ⟨r, w1⟩
    rw [hb] at h1
    simp only at h1
    subst h1
    simp [uploadFiles, forEachErr, hb]
  · intro file rest e hfail
    have h1 : (downloadOne env serverURL file w).1 = some e :=
      (downloadOne_error_iff env serverURL file w e).mpr hfail
    rcases hb : downloadOne env serverURL file w with ⟨r, w1⟩
    rw [hb] at h1
    simp only at h1
    subst h1
    simp [downloadFiles, forEachErr, hb]

/-- C6, amended, at concrete inputs: answers with status 500 give no error,
and a refused connection on the upload of `c` ends the round with that
error. -/
theorem sequential_error_only_from_read_or_request_witness :
    (uploadFiles envAllStatus500 "http://localhost:9001" ["a", "b"] []).1.2 = none ∧
    (downloadFiles envAllStatus500 "http://localhost:9001" ["a", "b"] []).1.2 = none ∧
    roundLoop envThirdFails ["c"] [⟨"t", "http://t", []⟩] [] ⟨∅, ∅, ∅, ∅⟩ =
      .ok (some ⟨"connection refused"⟩,
        [Call.removeAll "uploads", Call.mkdir "uploads", Call.httpGet "http://t/health",
          Call.readFile "c", Call.httpPost "http://t/upload/c" "application/octet-stream" []],
        ⟨∅, ∅, ∅, ∅⟩) := by
  have h := sequential_error_only_from_read_or_request envAllStatus500
    "http://localhost:9001" ["a", "b"] []
  have h2 := (sequential_error_only_from_read_or_request envThirdFails "http://t" ["c"]
    []).2.2.2.2.1 ⟨"t", "http://t", []⟩ [] ⟨∅, ∅, ∅, ∅⟩ ⟨"connection refused"⟩ 0
    [Call.removeAll "uploads", Call.mkdir "uploads"]
    [Call.removeAll "uploads", Call.mkdir "uploads", Call.httpGet "http://t/health"]
    [Call.removeAll "uploads", Call.mkdir "uploads", Call.httpGet "http://t/health",
      Call.readFile "c", Call.httpPost "http://t/upload/c" "application/octet-stream" []]
    rfl rfl rfl
  exact ⟨h.2.2.1 (fun _ _ => ⟨[], rfl⟩) (fun _ _ _ _ => ⟨⟨500, []⟩, rfl⟩),
    h.2.2.2.1 (fun _ _ => ⟨⟨500, []⟩, rfl⟩), h2⟩

/-! ## C7 and C8: the result recorder -/

/-- The records a loop over the visited entries appends to the writer. -/
theorem foldl_append_rows {ε : Type} (f : ε → List String) :
    ∀ (es : List ε) (init : CsvWriter),
      es.foldl (fun wr e => wr ++ [f e]) init = init ++ es.map f := by
  intro es
  induction es with
  | nil => intro init; simp
  | cons e es ih => intro init; simp [List.foldl_cons, ih]

/-- The records written by one call of `writeResultsToCSV`: the header, then
one record per visited entry. -/
theorem writeResultsToCSV_eq (order : MapOrder) (writer : CsvWriter) (label : String)
    (results : SampleTable) :
    writeResultsToCSV order writer label results =
      writer ++
        [label :: createRoundHeaders (SampleTable.get results "python_flask").length] ++
        (order.visit
          (writer ++
            [label :: createRoundHeaders (SampleTable.get results "python_flask").length])
          results.entries).map (fun e => e.1 :: convertToStringSlice e.2) := by
  unfold writeResultsToCSV
  rw [foldl_append_rows]
  rfl

/-- C7, as stated, fails.  In the table `{python_flask: [15], go_http: [10, 20]}`
the longest sequence has two samples, and the header carries the single
index column `1`.  In the table `{A: [10, 20], B: [15]}`, which has no entry
for the first registered server, the header carries no index
column at all. -/
theorem header_max_counterexample :
    (SampleTable.get tableFirstShorter "go_http").length = 2 ∧
    (writeResultsToCSV storedOrder [] "Server up" tableFirstShorter).head? =
      some ["Server up", "1"] ∧
    createRoundHeaders 2 = ["1", "2"] ∧
    (writeResultsToCSV storedOrder [] "Server up" tableAB).head? = some ["Server up"] := by
  refine ⟨by decide, by decide, by decide, by decide⟩

/-- C7, amended.  The first record written by `writeResultsToCSV` is the label
followed by `createRoundHeaders(m)`, where `m` is the number of samples the
table holds for the first registered server, `python_flask` (0 when it has no
entry); and `createRoundHeaders(n)` is the list of the index columns
`"1", "2", ..., "n"`. -/
theorem header_spans_first_server (order : MapOrder) (writer : CsvWriter) (label : String)
    (results : SampleTable) (n : Nat) :
    (∃ rows, writeResultsToCSV order writer label results =
      writer ++
        (label :: createRoundHeaders (SampleTable.get results "python_flask").length) :: rows) ∧
    (createRoundHeaders n).length = n ∧
    (∀ i, i < n → (createRoundHeaders n)[i]? = some (toString (i + 1))) := by
  refine ⟨⟨(order.visit
      (writer ++ [label :: createRoundHeaders (SampleTable.get results "python_flask").length])
      results.entries).map (fun e => e.1 :: convertToStringSlice e.2), ?_⟩, ?_, ?_⟩
  · rw [writeResultsToCSV_eq, List.append_assoc]
    rfl
  · simp [createRoundHeaders]
  · intro i hi
    simp [createRoundHeaders, List.getElem?_range hi]

/-- C8.  Data rows are sparse and faithful.  After the header,
`writeResultsToCSV` writes, up to order, exactly one record per entry of the
table: the target name followed by the decimal renderings of its samples in
stored order, so the record has as many value columns as the target has
samples.  The names of the entries are pairwise distinct, and an entry of the
table is a name together with the samples stored for it. -/
theorem data_rows_sparse_faithful (order : MapOrder) (writer : CsvWriter) (label : String)
    (results : SampleTable) :
    ∃ rows,
      writeResultsToCSV order writer label results =
        writer ++
          [label :: createRoundHeaders (SampleTable.get results "python_flask").length] ++
          rows ∧
      rows.Perm (results.entries.map fun e => e.1 :: e.2.map (fun t => toString t)) ∧
      (results.entries.map fun e => e.1).Nodup ∧
      (∀ e ∈ results.entries, SampleTable.get results e.1 = e.2) ∧
      (∀ row ∈ rows, ∃ e ∈ results.entries,
        row = e.1 :: e.2.map (fun t => toString t) ∧ row.length = 1 + e.2.length) := by
  have hperm := order.visit_perm
    (writer ++ [label :: createRoundHeaders (SampleTable.get results "python_flask").length])
    results.entries
  refine ⟨_, writeResultsToCSV_eq order writer label results, ?_, ?_, ?_, ?_⟩
  · exact hperm.map _
  · exact results.keys_nodup
  · intro e he
    have : results.lookup e.1 = some e.2 :=
      Option.mem_def.mp (AList.mem_lookup_iff.mpr (by cases e; exact he))
    simp [SampleTable.get, this]
  · intro row hrow
    rw [List.mem_map] at hrow
    obtain ⟨e, he, rfl⟩ := hrow
    refine ⟨e, hperm.mem_iff.mp he, rfl, ?_⟩
    simp [convertToStringSlice]
    omega

/-- The example of C8: the table `{A: [10, 20], B: [15]}` gives the data
records `B,15` and `A,10,20` (here in stored order). -/
theorem data_rows_example :
    (writeResultsToCSV storedOrder [] "Server up" tableAB).tail =
      [["B", "15"], ["A", "10", "20"]] := by
  decide

/-! ## C9: start-up of the targets -/

theorem startsOf_append (w1 w2 : World) : startsOf (w1 ++ w2) = startsOf w1 ++ startsOf w2 := by
  simp [startsOf, List.filterMap_append]

/-- The only error of one iteration of `startServers` is the error of the
launch; the probe after a launch never produces one. -/
theorem startOne_error (env : Env) (server : Server) (w : World) :
    (startOne env server w).1 = env.start w server.cmd := by
  unfold startOne
  cases env.start w server.cmd <;> rfl

/-- A failed launch is the last call of `startServers`. -/
theorem startOne_world_of_error (env : Env) (server : Server) (w : World) (e : GoError)
    (h : (startOne env server w).1 = some e) :
    (startOne env server w).2 = w ++ [Call.start server.cmd] := by
  unfold startOne at h ⊢
  cases hs : env.start w server.cmd with
  | none => simp [hs] at h
  | some err => rfl

/-- Every iteration of `startServers` launches exactly its own server. -/
theorem startsOf_startOne (env : Env) (server : Server) (w : World) :
    startsOf (startOne env server w).2 = startsOf w ++ [server.cmd] := by
  unfold startOne
  cases env.start w server.cmd with
  | some err => simp [startsOf_append, startsOf]
  | none =>
    simp only [checkServerAvailability]
    split <;> simp [startsOf_append, startsOf]

theorem startsOf_runAll_start (env : Env) :
    ∀ (svs : List Server) (w : World),
      startsOf (runAll (startOne env) svs w) = startsOf w ++ svs.map Server.cmd := by
  intro svs
  induction svs with
  | nil => intro w; simp [runAll_nil]
  | cons s svs ih => intro w; rw [runAll_cons, ih, startsOf_startOne]; simp

/-- C9, as stated, fails.  The launch of `python_fastapi` fails:
`startServers` returns the error after two launch attempts, `go_http` and
`go_gin` are never launched, and `main` ends there, before any result file
is created and any round is run. -/
theorem startup_isolation_counterexample :
    (startServers envSecondStartFails []).1 =
      some ⟨"exec: \"python3\": executable file not found in $PATH"⟩ ∧
    startsOf (startServers envSecondStartFails []).2 =
      [["python3", "servers/python_flask/main.py"],
        ["python3", "servers/python_fastapi/main.py"]] ∧
    Call.start ["go", "run", "servers/go_http/main.go"] ∉ (startServers envSecondStartFails []).2 ∧
    Call.start ["go", "run", "servers/go_gin/main.go"] ∉ (startServers envSecondStartFails []).2 ∧
    main envSecondStartFails storedOrder [] =
      .ok ⟨[Call.start ["python3", "servers/python_flask/main.py"], Call.sleep 5000,
          Call.httpGet "http://localhost:8002/health",
          Call.start ["python3", "servers/python_fastapi/main.py"]], none, none⟩ := by
  refine ⟨by decide, by decide, by decide, by decide, rfl⟩

/-- C9, amended.  `startServers` launches the registered targets in registry
order and stops at the first launch that fails: if the launch of the target
at position `k` is the first to fail, with error `e`, then `startServers`
returns `e` right after that attempt, the targets launched or attempted are
exactly those of positions `0 .. k`, and `main` ends the run there, with no
result file created.  The only error of an iteration is the error of the
launch, so a failed availability probe stops nothing: if every launch
succeeds, every registered target is launched and no error is returned. -/
theorem startup_stops_at_first_failure (env : Env) (order : MapOrder) (w : World) :
    (∀ (server : Server) (w1 : World), (startOne env server w1).1 = env.start w1 server.cmd) ∧
    (∀ (k : Nat) (hk : k < servers.length) (e : GoError),
      (∀ (i : Nat) (hi : i < servers.length), i < k →
        (startOne env servers[i] (runAll (startOne env) (servers.take i) w)).1 = none) →
      (startOne env servers[k] (runAll (startOne env) (servers.take k) w)).1 = some e →
      startServers env w =
        (some e, runAll (startOne env) (servers.take k) w ++ [Call.start servers[k].cmd]) ∧
      startsOf (startServers env w).2 = startsOf w ++ (servers.take (k + 1)).map Server.cmd ∧
      main env order w = .ok ⟨(startServers env w).2, none, none⟩) ∧
    ((∀ (i : Nat) (hi : i < servers.length),
        (startOne env servers[i] (runAll (startOne env) (servers.take i) w)).1 = none) →
      (startServers env w).1 = none ∧
      startsOf (startServers env w).2 = startsOf w ++ servers.map Server.cmd) := by
  refine ⟨startOne_error env, ?_, ?_⟩
  · intro k hk e hpre hfail
    have hloop := forEachErr_first_error (startOne env) servers w k hk e hpre hfail
    rw [startOne_world_of_error env _ _ e hfail] at hloop
    have hs : startServers env w =
        (some e, runAll (startOne env) (servers.take k) w ++ [Call.start servers[k].cmd]) := by
      simpa [startServers, startLoop] using hloop
    refine ⟨hs, ?_, ?_⟩
    · rw [hs]
      simp only [startsOf_append, startsOf_runAll_start,
        take_succ_eq_take_append_getElem servers k hk, List.map_append, List.map_cons,
        List.map_nil, List.append_assoc]
      rfl
    · simp only [main, hs]
  · intro hall
    have hloop := forEachErr_all_ok (startOne env) servers w hall
    have hs : startServers env w = (none, runAll (startOne env) servers w) := by
      simpa [startServers, startLoop] using hloop
    rw [hs]
    exact ⟨rfl, startsOf_runAll_start env servers w⟩

/-- C9, amended, where the launch of the second target fails: two launches
are attempted and `main` ends. -/
theorem startup_stops_at_first_failure_witness :
    startsOf (startServers envSecondStartFails []).2 =
      startsOf [] ++ (servers.take (1 + 1)).map Server.cmd ∧
    main envSecondStartFails storedOrder [] =
      .ok ⟨(startServers envSecondStartFails []).2, none, none⟩ := by
  have h := (startup_stops_at_first_failure envSecondStartFails storedOrder []).2.1 1
    (by decide) ⟨"exec: \"python3\": executable file not found in $PATH"⟩
    (by
      intro i hi hik
      interval_cases i
      rfl)
    (by rfl)
  exact ⟨h.2.1, h.2.2⟩

/-! ## C10: upload then download on `go_http` -/

/-- C10 on the code: the upload of the file `a` with content `1, 2, 3`
succeeds and stores the content under `uploads/upload/a`; the download of `a`
looks under `uploads/download/a`, where nothing is stored, and answers 404
instead of the content. -/
theorem go_http_roundtrip_fails :
    (uploadHandler emptyStorage (uploadRequest "a" [1, 2, 3])).1 =
      Reply.text 200 "File uploaded successfully" ∧
    (uploadHandler emptyStorage (uploadRequest "a" [1, 2, 3])).2.content "uploads/upload/a" =
      some [1, 2, 3] ∧
    (uploadHandler emptyStorage (uploadRequest "a" [1, 2, 3])).2.content "uploads/download/a" =
      none ∧
    downloadHandler (uploadHandler emptyStorage (uploadRequest "a" [1, 2, 3])).2
      (downloadRequest "a") = Reply.text 404 "404 page not found\n" ∧
    downloadHandler (uploadHandler emptyStorage (uploadRequest "a" [1, 2, 3])).2
      (downloadRequest "a") ≠ Reply.file 200 [1, 2, 3] := by
  refine ⟨by decide, by decide, by decide, by decide, by decide⟩

/-! ## C3: a skipped target keeps its samples -/

theorem SampleTable.get_appendSample_self (m : SampleTable) (key : String) (x : Int) :
    SampleTable.get (SampleTable.appendSample m key x) key = SampleTable.get m key ++ [x] := by
  simp [SampleTable.get, SampleTable.appendSample, AList.lookup_insert]

theorem SampleTable.get_appendSample_other (m : SampleTable) (key other : String) (x : Int)
    (h : other ≠ key) :
    SampleTable.get (SampleTable.appendSample m key x) other = SampleTable.get m other := by
  simp [SampleTable.get, SampleTable.appendSample, AList.lookup_insert_ne h]

/-- One iteration of the loop of `runTestRound` that lets the round go on
without error: the reset succeeded, and either the probe returned `false` and
the tables are passed on as they are, or it returned `true` and one sample
was appended to each of the four tables for this server. -/
theorem roundLoop_cons_ok (env : Env) (current : List String) (server : Server)
    (rest : List Server) (w : World) (t : Tables) (w9 : World) (t9 : Tables)
    (h : roundLoop env current (server :: rest) w t = .ok (none, w9, t9)) :
    ∃ w1, clearUploads env w = (none, w1) ∧
      (((checkServerAvailability env server.url w1).1 = false ∧
          roundLoop env current rest (checkServerAvailability env server.url w1).2 t =
            .ok (none, w9, t9)) ∨
        ((checkServerAvailability env server.url w1).1 = true ∧
          ∃ (a b c d : Int) (w6 : World),
            roundLoop env current rest w6 (Tables.appendAll t server.name a b c d) =
              .ok (none, w9, t9))) := by
  rw [roundLoop] at h
  rcases hc : clearUploads env w with ⟨r, w1⟩
  rw [hc] at h
  cases r with
  | some err => simp at h
  | none =>
    refine ⟨w1, rfl, ?_⟩
    simp only at h
    rcases hp : checkServerAvailability env server.url w1 with ⟨b, w2⟩
    rw [hp] at h
    cases b with
    | false => exact Or.inl ⟨rfl, h⟩
    | true =>
      refine Or.inr ⟨rfl, ?_⟩
      simp only at h
      rcases hu : uploadFiles env server.url current w2 with ⟨⟨d1, r1⟩, w3⟩
      rw [hu] at h
      cases r1 with
      | some err => simp at h
      | none =>
        simp only at h
        rcases hd : downloadFiles env server.url current w3 with ⟨⟨d2, r2⟩, w4⟩
        rw [hd] at h
        cases r2 with
        | some err => simp at h
        | none =>
          simp only at h
          cases hup : uploadFilesParallel env server.url current w4 with
          | error a => rw [hup] at h; simp at h
          | ok v =>
            rcases v with ⟨⟨d3, r3⟩, w5⟩
            rw [hup] at h
            cases r3 with
            | some err => simp at h
            | none =>
              simp only at h
              cases hdp : downloadFilesParallel env server.url current w5 with
              | error a => rw [hdp] at h; simp at h
              | ok v2 =>
                rcases v2 with ⟨⟨d4, r4⟩, w6⟩
                rw [hdp] at h
                cases r4 with
                | some err => simp at h
                | none =>
                  simp only at h
                  exact ⟨milliseconds d1, milliseconds d2, milliseconds d3, milliseconds d4,
                    w6, h⟩

/-- The loop over `pre ++ post` is the loop over `pre` followed, when that
one ends without error, by the loop over `post`. -/
theorem roundLoop_append (env : Env) (current : List String) :
    ∀ (pre post : List Server) (w : World) (t : Tables),
      roundLoop env current (pre ++ post) w t =
        match roundLoop env current pre w t with
        | .ok (none, wi, ti) => roundLoop env current post wi ti
        | .ok (some e, wi, ti) => .ok (some e, wi, ti)
        | .error a => .error a := by
  intro pre
  induction pre with
  | nil => intro post w t; simp [roundLoop]
  | cons s pre ih =>
    intro post w t
    simp only [List.cons_append, roundLoop]
    rcases clearUploads env w with ⟨r, w1⟩
    cases r with
    | some err => rfl
    | none =>
      simp only
      rcases checkServerAvailability env s.url w1 with ⟨b, w2⟩
      cases b with
      | false => exact ih post w2 t
      | true =>
        simp only
        rcases uploadFiles env s.url current w2 with ⟨⟨d1, r1⟩, w3⟩
        cases r1 with
        | some err => rfl
        | none =>
          simp only
          rcases downloadFiles env s.url current w3 with ⟨⟨d2, r2⟩, w4⟩
          cases r2 with
          | some err => rfl
          | none =>
            simp only
            cases uploadFilesParallel env s.url current w4 with
            | error a => rfl
            | ok v =>
              rcases v with ⟨⟨d3, r3⟩, w5⟩
              cases r3 with
              | some err => rfl
              | none =>
                simp only
                cases downloadFilesParallel env s.url current w5 with
                | error a => rfl
                | ok v2 =>
                  rcases v2 with ⟨⟨d4, r4⟩, w6⟩
                  cases r4 with
                  | some err => rfl
                  | none => exact ih post w6 _

/-- A round that ends without error changes, in every table, only the
sequences of the servers it visits. -/
theorem roundLoop_frame (env : Env) (current : List String) :
    ∀ (svs : List Server) (w : World) (t : Tables) (w9 : World) (t9 : Tables) (name : String),
      roundLoop env current svs w t = .ok (none, w9, t9) →
      name ∉ svs.map Server.name →
      SampleTable.get t9.uploadResults name = SampleTable.get t.uploadResults name ∧
      SampleTable.get t9.downloadResults name = SampleTable.get t.downloadResults name ∧
      SampleTable.get t9.uploadResultsParallel name =
        SampleTable.get t.uploadResultsParallel name ∧
      SampleTable.get t9.downloadResultsParallel name =
        SampleTable.get t.downloadResultsParallel name := by
  intro svs
  induction svs with
  | nil =>
    intro w t w9 t9 name h _
    simp only [roundLoop, Except.ok.injEq, Prod.mk.injEq, true_and] at h
    obtain ⟨_, rfl⟩ := h
    exact ⟨rfl, rfl, rfl, rfl⟩
  | cons s svs ih =>
    intro w t w9 t9 name h hname
    simp only [List.map_cons, List.mem_cons, not_or] at hname
    obtain ⟨w1, _, hcase⟩ := roundLoop_cons_ok env current s svs w t w9 t9 h
    rcases hcase with ⟨_, hrest⟩ | ⟨_, a, b, c, d, w6, hrest⟩
    · exact ih _ _ _ _ name hrest hname.2
    · have := ih _ _ _ _ name hrest hname.2
      simpa [Tables.appendAll, SampleTable.get_appendSample_other _ _ _ _ hname.1] using this

/-- The parallel upload batch always returns, and without error. -/
theorem uploadFilesParallel_returns (env : Env) (serverURL : String) (files : List String)
    (w : World) :
    ∃ (d : Int) (w1 : World), uploadFilesParallel env serverURL files w = .ok ((d, none), w1) := by
  obtain ⟨w1, h1, _⟩ := runPool_upload env serverURL (2 * files.length)
    (files.map UploadUnit.spawned) w
    (by
      have : ∀ l : List String,
          ((l.map UploadUnit.spawned).map UploadUnit.cost).sum = 2 * l.length := by
        intro l
        induction l with
        | nil => rfl
        | cons a l ih =>
          simp only [List.map_cons, List.sum_cons, List.length_cons, ih, UploadUnit.cost]
          omega
      rw [this])
  exact ⟨env.now w1 - env.now w, w1, by simp [uploadFilesParallel, h1]⟩

/-- The parallel download batch always returns, and without error. -/
theorem downloadFilesParallel_returns (env : Env) (serverURL : String) (files : List String)
    (w : World) :
    ∃ (d : Int) (w1 : World),
      downloadFilesParallel env serverURL files w = .ok ((d, none), w1) := by
  obtain ⟨w1, h1, _⟩ := runPool_download env serverURL files.length files w (Nat.le_refl _)
  exact ⟨env.now w1 - env.now w, w1, by simp [downloadFilesParallel, h1]⟩

/-- The loop of `runTestRound` always returns; and when it returns an error,
that error is the error of a storage reset or of a sequential batch, so a
round in which no storage reset and no sequential batch fails returns without
error. -/
theorem roundLoop_returns (env : Env) (current : List String) :
    ∀ (svs : List Server) (w : World) (t : Tables),
      ∃ (r : Option GoError) (w9 : World) (t9 : Tables),
        roundLoop env current svs w t = .ok (r, w9, t9) ∧
        ∀ e, r = some e →
          ∃ h : World, (clearUploads env h).1 = some e ∨
            ∃ s ∈ svs, (uploadFiles env s.url current h).1.2 = some e ∨
              (downloadFiles env s.url current h).1.2 = some e := by
  intro svs
  induction svs with
  | nil => intro w t; exact ⟨none, w, t, rfl, by intro e h; cases h⟩
  | cons s svs ih =>
    intro w t
    have lift : ∀ (w2 : World) (t2 : Tables),
        ∃ (r : Option GoError) (w9 : World) (t9 : Tables),
          roundLoop env current svs w2 t2 = .ok (r, w9, t9) ∧
          ∀ e, r = some e →
            ∃ h : World, (clearUploads env h).1 = some e ∨
              ∃ s1 ∈ s :: svs, (uploadFiles env s1.url current h).1.2 = some e ∨
                (downloadFiles env s1.url current h).1.2 = some e := by
      intro w2 t2
      obtain ⟨r, w9, t9, hr, hsrc⟩ := ih w2 t2
      refine ⟨r, w9, t9, hr, ?_⟩
      intro e he
      obtain ⟨h, hh⟩ := hsrc e he
      refine ⟨h, ?_⟩
      rcases hh with hh | ⟨s1, hs1, hh⟩
      · exact Or.inl hh
      · exact Or.inr ⟨s1, List.mem_cons_of_mem _ hs1, hh⟩
    rw [roundLoop]
    rcases hc : clearUploads env w with ⟨r0, w1⟩
    cases r0 with
    | some err =>
      refine ⟨some err, w1, t, rfl, ?_⟩
      intro e he
      cases he
      exact ⟨w, Or.inl (by rw [hc])⟩
    | none =>
      simp only
      rcases hp : checkServerAvailability env s.url w1 with ⟨b, w2⟩
      cases b with
      | false => exact lift w2 t
      | true =>
        simp only
        rcases hu : uploadFiles env s.url current w2 with ⟨⟨d1, r1⟩, w3⟩
        cases r1 with
        | some err =>
          refine ⟨some err, w3, t, rfl, ?_⟩
          intro e he
          cases he
          exact ⟨w2, Or.inr ⟨s, List.mem_cons_self _ _, Or.inl (by rw [hu])⟩⟩
        | none =>
          simp only
          rcases hd : downloadFiles env s.url current w3 with ⟨⟨d2, r2⟩, w4⟩
          cases r2 with
          | some err =>
            refine ⟨some err, w4, t, rfl, ?_⟩
            intro e he
            cases he
            exact ⟨w3, Or.inr ⟨s, List.mem_cons_self _ _, Or.inr (by rw [hd])⟩⟩
          | none =>
            simp only
            obtain ⟨d3, w5, hup⟩ := uploadFilesParallel_returns env s.url current w4
            rw [hup]
            simp only
            obtain ⟨d4, w6, hdp⟩ := downloadFilesParallel_returns env s.url current w5
            rw [hdp]
            simp only
            exact lift w6 _

/-- The names of the registered servers are pairwise distinct. -/
theorem servers_names_nodup : (servers.map Server.name).Nodup := by decide

/-- C3.  Skipping an unavailable target leaves its samples untouched.  Take
a round of `runTestRound` that returns without error (no storage reset and no
sequential batch failed) and any registered target, at position `i` of the
registry.  The round reaches that target after the iterations of the targets
before it, resets the storage and probes it.  If the probe returns `false`,
the sequence of the target is the same before and after the round in each of
the four tables; if it returns `true`, each of the four sequences after the
round is the sequence before the round with exactly one sample appended at
its end. -/
theorem skipped_target_samples_untouched (env : Env) (round : Int) (files : List String)
    (w : World) (t : Tables) (w9 : World) (t9 : Tables)
    (hrun : runTestRound env round files w t = .ok (none, w9, t9))
    (i : Nat) (hi : i < servers.length) :
    ∃ (current : List String) (wi : World) (ti : Tables) (w1 : World),
      currentFiles round files = some current ∧
      roundLoop env current (servers.take i) w t = .ok (none, wi, ti) ∧
      clearUploads env wi = (none, w1) ∧
      ((checkServerAvailability env servers[i].url w1).1 = false →
        SampleTable.get t9.uploadResults servers[i].name =
          SampleTable.get t.uploadResults servers[i].name ∧
        SampleTable.get t9.downloadResults servers[i].name =
          SampleTable.get t.downloadResults servers[i].name ∧
        SampleTable.get t9.uploadResultsParallel servers[i].name =
          SampleTable.get t.uploadResultsParallel servers[i].name ∧
        SampleTable.get t9.downloadResultsParallel servers[i].name =
          SampleTable.get t.downloadResultsParallel servers[i].name) ∧
      ((checkServerAvailability env servers[i].url w1).1 = true →
        ∃ a b c d : Int,
          SampleTable.get t9.uploadResults servers[i].name =
            SampleTable.get t.uploadResults servers[i].name ++ [a] ∧
          SampleTable.get t9.downloadResults servers[i].name =
            SampleTable.get t.downloadResults servers[i].name ++ [b] ∧
          SampleTable.get t9.uploadResultsParallel servers[i].name =
            SampleTable.get t.uploadResultsParallel servers[i].name ++ [c] ∧
          SampleTable.get t9.downloadResultsParallel servers[i].name =
            SampleTable.get t.downloadResultsParallel servers[i].name ++ [d]) := by
  -- the workload of the round
  unfold runTestRound at hrun
  cases hcur : currentFiles round files with
  | none => rw [hcur] at hrun; simp at hrun
  | some current =>
    rw [hcur] at hrun
    simp only at hrun
    -- the registry around position `i`
    have hsplit : servers = servers.take i ++ servers[i] :: servers.drop (i + 1) := by
      rw [← List.drop_eq_getElem_cons hi, List.take_append_drop]
    have hnodup := servers_names_nodup
    rw [hsplit, List.map_append, List.map_cons] at hnodup
    have hpre : servers[i].name ∉ (servers.take i).map Server.name := by
      intro hmem
      exact (List.nodup_append.mp hnodup).2.2 hmem (List.mem_cons_self _ _)
    have hpost : servers[i].name ∉ (servers.drop (i + 1)).map Server.name :=
      (List.nodup_cons.mp (List.nodup_append.mp hnodup).2.1).1
    -- the iterations before position `i`, then the one at `i`
    rw [hsplit, roundLoop_append] at hrun
    cases hloop : roundLoop env current (servers.take i) w t with
    | error a => rw [hloop] at hrun; simp at hrun
    | ok v =>
      rcases v with ⟨r, wi, ti⟩
      rw [hloop] at hrun
      cases r with
      | some e => simp at hrun
      | none =>
        simp only at hrun
        obtain ⟨w1, hclear, hcase⟩ :=
          roundLoop_cons_ok env current servers[i] (servers.drop (i + 1)) wi ti w9 t9 hrun
        have hfr1 := roundLoop_frame env current (servers.take i) w t wi ti servers[i].name
          hloop hpre
        refine ⟨current, wi, ti, w1, rfl, hloop, hclear, ?_, ?_⟩
        · intro hfalse
          rcases hcase with ⟨_, hrest⟩ | ⟨htrue, _⟩
          · have hfr2 := roundLoop_frame env current (servers.drop (i + 1)) _ ti w9 t9
              servers[i].name hrest hpost
            exact ⟨hfr2.1.trans hfr1.1, hfr2.2.1.trans hfr1.2.1, hfr2.2.2.1.trans hfr1.2.2.1,
              hfr2.2.2.2.trans hfr1.2.2.2⟩
          · rw [hfalse] at htrue
            cases htrue
        · intro htrue
          rcases hcase with ⟨hfalse, _⟩ | ⟨_, a, b, c, d, w6, hrest⟩
          · rw [htrue] at hfalse
            cases hfalse
          · have hfr2 := roundLoop_frame env current (servers.drop (i + 1)) w6
              (Tables.appendAll ti servers[i].name a b c d) w9 t9 servers[i].name hrest hpost
            refine ⟨a, b, c, d, ?_, ?_, ?_, ?_⟩
            · rw [hfr2.1, ← hfr1.1]
              exact SampleTable.get_appendSample_self _ _ _
            · rw [hfr2.2.1, ← hfr1.2.1]
              exact SampleTable.get_appendSample_self _ _ _
            · rw [hfr2.2.2.1, ← hfr1.2.2.1]
              exact SampleTable.get_appendSample_self _ _ _
            · rw [hfr2.2.2.2, ← hfr1.2.2.2]
              exact SampleTable.get_appendSample_self _ _ _

/-- C3 in a round where `go_http` does not answer its health request: the
round returns without error, `go_http` (position 2) keeps its empty sequences
and `python_flask` (position 0) gets one sample in each table. -/
theorem skipped_target_samples_untouched_witness :
    ∃ (w9 : World) (t9 : Tables),
      runTestRound envGoHttpDown 1 ["a"] [] ⟨∅, ∅, ∅, ∅⟩ = .ok (none, w9, t9) ∧
      (SampleTable.get t9.uploadResults "go_http" = [] ∧
        SampleTable.get t9.downloadResults "go_http" = [] ∧
        SampleTable.get t9.uploadResultsParallel "go_http" = [] ∧
        SampleTable.get t9.downloadResultsParallel "go_http" = []) ∧
      (∃ a b c d : Int,
        SampleTable.get t9.uploadResults "python_flask" = [] ++ [a] ∧
        SampleTable.get t9.downloadResults "python_flask" = [] ++ [b] ∧
        SampleTable.get t9.uploadResultsParallel "python_flask" = [] ++ [c] ∧
        SampleTable.get t9.downloadResultsParallel "python_flask" = [] ++ [d]) := by
  refine ⟨_, _, rfl, ?_, ?_⟩
  · obtain ⟨_, _, _, w1, _, _, _, hfalse, _⟩ :=
      skipped_target_samples_untouched envGoHttpDown 1 ["a"] [] ⟨∅, ∅, ∅, ∅⟩ _ _ rfl 2
        (by decide)
    exact hfalse rfl
  · obtain ⟨_, _, _, w1, _, _, _, _, htrue⟩ :=
      skipped_target_samples_untouched envGoHttpDown 1 ["a"] [] ⟨∅, ∅, ∅, ∅⟩ _ _ rfl 0
        (by decide)
    exact htrue rfl

end Cursov
